import Mathlib

/-!
Verification of the strategy-contest evaluation engine.

This file shallowly embeds the rule-based evaluation pipeline of the
repository (security audit, strict compliance check, data-integrity check,
contest-rules verification, and the orchestrator with its final ranking)
and proves or refutes the behavioural claims about it.

Conventions of the embedding:
 - Python floats are modelled as exact rationals.  All scores and metric
   values in the sources are produced by additions, subtractions,
   multiplications and divisions of decimal literals, so the rational
   semantics coincides with the source on every quantity mentioned in a
   theorem.
 - Python regular-expression matching (re.search) is modelled by a small
   backtracking engine over an explicit pattern AST; each pattern of the
   source is transcribed into that AST next to a comment holding the
   original pattern text.
 - Free-text payload fields of the issue dataclasses (description,
   recommendation, code_snippet) carry no control flow in the sources and
   are elided from the embedded records; every field that any branch,
   score or ordering depends on is kept.
-/

set_option maxRecDepth 400000

/-! ## Python string primitives

Models of the exact str operations used by the sources: lower, split,
splitlines, strip, replace, startswith and the substring test (in).
-/

def charLower (c : Char) : Char := c.toLower

/-- Model of str.lower (the sources only feed ASCII-relevant text). -/
def pyLower (s : String) : String := String.mk (s.toList.map charLower)

/-- Characters stripped by str.strip() with no argument. -/
def pyWhitespace : List Char := [' ', '\t', '\n', '\r', '\x0b', '\x0c']

def dropWhileMem (cs : List Char) : List Char → List Char
  | [] => []
  | c :: rest => if cs.contains c then dropWhileMem cs rest else c :: rest

/-- Model of str.strip(chars): drop leading and trailing characters of cs. -/
def pyStripChars (cs : List Char) (s : String) : String :=
  String.mk (dropWhileMem cs ((dropWhileMem cs s.toList.reverse).reverse))

/-- Model of str.strip() (default whitespace). -/
def pyStrip (s : String) : String := pyStripChars pyWhitespace s

def listStartsWith : List Char → List Char → Bool
  | _, [] => true
  | [], _ :: _ => false
  | c :: cs, p :: ps => c == p && listStartsWith cs ps

/-- Model of str.startswith. -/
def pyStartsWith (s p : String) : Bool := listStartsWith s.toList p.toList

def listContainsSub (hay needle : List Char) : Bool :=
  match hay with
  | [] => needle.isEmpty
  | _ :: rest => listStartsWith hay needle || listContainsSub rest needle

/-- Model of the Python substring test (needle in hay). -/
def strContains (hay needle : String) : Bool := listContainsSub hay.toList needle.toList

def splitOnCharAux (sep : Char) : List Char → List Char → List String
  | acc, [] => [String.mk acc.reverse]
  | acc, c :: rest =>
    if c == sep then String.mk acc.reverse :: splitOnCharAux sep [] rest
    else splitOnCharAux sep (c :: acc) rest

/-- Model of str.split(sep) for a one-character separator. -/
def pySplitOn (sep : Char) (s : String) : List String := splitOnCharAux sep [] s.toList

/-- Model of str.splitlines() restricted to the newline separator: like
split on newline but with no entry after a trailing newline, and no entry
at all for the empty string. -/
def pySplitlines (s : String) : List String :=
  if s.toList.isEmpty then []
  else
    let parts := pySplitOn '\n' s
    if s.toList.getLast? == some '\n' then parts.dropLast else parts

/-- Model of str.split() with no argument: split on whitespace runs,
dropping empty fields. -/
def pySplitWs (s : String) : List String :=
  ((pySplitOn ' ' (String.mk (s.toList.map (fun c =>
      if pyWhitespace.contains c then ' ' else c)))).filter (fun p => p ≠ ""))

def replaceAux (old new : List Char) : Nat → List Char → List Char
  | 0, s => s
  | fuel + 1, s =>
    match s with
    | [] => []
    | c :: rest =>
      if listStartsWith s old then new ++ replaceAux old new fuel (s.drop old.length)
      else c :: replaceAux old new fuel rest

/-- Model of str.replace(old, new) for a non-empty old. -/
def pyReplace (s old new : String) : String :=
  String.mk (replaceAux old.toList new.toList s.toList.length s.toList)

/-- Pair every element of a list with its 1-based index, like
enumerate(xs, 1). -/
def enumerate1 (xs : List String) : List (Nat × String) :=
  (List.range xs.length).zip xs |>.map (fun p => (p.1 + 1, p.2))

/-! ## Number parsing

Models of Python float()/int() restricted to the decimal forms that can
reach them in the sources (optional sign, digits, optional fraction); any
other input yields none, modelling the ValueError branch. -/

def isDigitChar (c : Char) : Bool := '0' ≤ c && c ≤ '9'

def digitsToNat : List Char → Nat
  | [] => 0
  | c :: rest => (c.toNat - '0'.toNat) * 10 ^ rest.length + digitsToNat rest

/-- Executable maximum on rationals (Python max), avoiding the
non-reducing lattice operation. -/
def qmax (a b : ℚ) : ℚ := if a ≤ b then b else a

/-- Executable minimum on rationals (Python min). -/
def qmin (a b : ℚ) : ℚ := if a ≤ b then a else b

/-! The four arithmetic operations of the rational type are marked
irreducible upstream, which blocks kernel evaluation of concrete runs.
The embedding therefore computes with the reducible smart constructor
mkRat; the four theorems directly below prove these operations equal to
the standard ones, so every score and metric below is the exact rational
the source computes. -/

/-- Reducible rational addition. -/
def qadd (a b : ℚ) : ℚ := mkRat (a.num * b.den + b.num * a.den) (a.den * b.den)

/-- Reducible rational subtraction. -/
def qsub (a b : ℚ) : ℚ := mkRat (a.num * b.den - b.num * a.den) (a.den * b.den)

/-- Reducible rational multiplication. -/
def qmul (a b : ℚ) : ℚ := mkRat (a.num * b.num) (a.den * b.den)

/-- Reducible rational division. -/
def qdiv (a b : ℚ) : ℚ := Rat.divInt (a.num * b.den) (a.den * b.num)

theorem qadd_eq (a b : ℚ) : qadd a b = a + b := by
  rw [Rat.add_def']; rfl

theorem qsub_eq (a b : ℚ) : qsub a b = a - b := by
  rw [Rat.sub_def, Rat.normalize_eq_mkRat]; rfl

theorem qmul_eq (a b : ℚ) : qmul a b = a * b := by
  rw [Rat.mul_def, Rat.normalize_eq_mkRat]; rfl

theorem qdiv_eq (a b : ℚ) : qdiv a b = a / b := by
  rw [Rat.div_def']; rfl

/-- Parse an unsigned integer from exactly a non-empty run of digits. -/
def parseDigits (cs : List Char) : Option Nat :=
  if cs.isEmpty then none
  else if cs.all isDigitChar then some (digitsToNat cs) else none

/-- Model of int(s): optional surrounding whitespace, optional sign,
digits. -/
def pyParseInt (s : String) : Option Int :=
  let cs := (pyStrip s).toList
  match cs with
  | '+' :: rest => (parseDigits rest).map (fun n => (n : Int))
  | '-' :: rest => (parseDigits rest).map (fun n => -(n : Int))
  | _ => (parseDigits cs).map (fun n => (n : Int))

def parseUnsignedQ (cs : List Char) : Option ℚ :=
  match cs.splitOn '.' with
  | [whole] => (parseDigits whole).map (fun n => (n : ℚ))
  | [whole, frac] =>
    if whole.all isDigitChar && frac.all isDigitChar && !(whole.isEmpty && frac.isEmpty) then
      some (mkRat (digitsToNat whole * 10 ^ frac.length + digitsToNat frac) (10 ^ frac.length))
    else none
  | _ => none

/-- Model of float(s) on plain decimal input: optional surrounding
whitespace, optional sign, digits with at most one decimal point. -/
def pyParseFloat (s : String) : Option ℚ :=
  let cs := (pyStrip s).toList
  match cs with
  | '+' :: rest => parseUnsignedQ rest
  | '-' :: rest => (parseUnsignedQ rest).map (fun q => -q)
  | _ => parseUnsignedQ cs

/-! ## Regular-expression engine

Model of Python re.search for the pattern fragment used by the sources:
literals, character classes, the escapes for whitespace, word and digit
characters, word boundaries, anchors, alternation, greedy quantifiers and
capturing groups.  The matcher enumerates candidate matches in the
backtracking preference order of the Python engine (leftmost start first,
then greedy/left-biased alternatives), so the head of the enumeration at
the first matching start position is exactly the match re.search returns.
Starred subpatterns are required to consume input on every iteration; in
every pattern transcribed below the starred subpattern can only match
non-empty text, so this coincides with the source semantics. -/

inductive ClsItem where
  | ch (c : Char)
  | range (lo hi : Char)
deriving DecidableEq

inductive RE where
  | eps
  | lit (c : Char)
  | cls (neg : Bool) (items : List ClsItem)
  | wordB
  | bol
  | eol
  | seq (a b : RE)
  | alt (a b : RE)
  | star (r : RE)
  | grp (i : Nat) (r : RE)
deriving DecidableEq

def isWordChar (c : Char) : Bool :=
  ('a' ≤ c && c ≤ 'z') || ('A' ≤ c && c ≤ 'Z') || isDigitChar c || c == '_'

def charInCls (items : List ClsItem) (c : Char) : Bool :=
  items.any fun it =>
    match it with
    | .ch d => c == d
    | .range lo hi => lo ≤ c && c ≤ hi

def clsMatch (ic neg : Bool) (items : List ClsItem) (c : Char) : Bool :=
  let base :=
    if ic then charInCls items c || charInCls items c.toLower || charInCls items c.toUpper
    else charInCls items c
  if neg then !base else base

/-- Recorded spans of capturing groups: (group index, start, stop). -/
abbrev Caps := List (Nat × Nat × Nat)

def capsNil : Caps := []

def reSize : RE → Nat
  | .seq a b => 1 + reSize a + reSize b
  | .alt a b => 1 + reSize a + reSize b
  | .star r => 1 + reSize r
  | .grp _ r => 1 + reSize r
  | _ => 1

/-- All candidate matches of a pattern at a fixed start position, as
(end position, captures) pairs in backtracking preference order.  The
fuel argument only bounds recursion depth; reFuel below always provides
enough of it for the patterns and inputs of this development. -/
def matchListAux (ic : Bool) (s : List Char) : Nat → RE → Nat → List (Nat × Caps)
  | 0, _, _ => []
  | fuel + 1, re, pos =>
    match re with
    | .eps => [(pos, capsNil)]
    | .lit c =>
      match s[pos]? with
      | some d => if (if ic then charLower d == charLower c else d == c) then [(pos + 1, capsNil)] else []
      | none => []
    | .cls neg items =>
      match s[pos]? with
      | some d => if clsMatch ic neg items d then [(pos + 1, capsNil)] else []
      | none => []
    | .wordB =>
      let before :=
        match pos with
        | 0 => false
        | p + 1 => match s[p]? with | some d => isWordChar d | none => false
      let after := match s[pos]? with | some d => isWordChar d | none => false
      if before != after then [(pos, capsNil)] else []
    | .bol => if pos == 0 then [(pos, capsNil)] else []
    | .eol =>
      if pos == s.length || (pos + 1 == s.length && s[pos]? == some '\n') then [(pos, capsNil)]
      else []
    | .seq a b =>
      (matchListAux ic s fuel a pos).flatMap fun pc =>
        (matchListAux ic s fuel b pc.1).map fun qc => (qc.1, pc.2 ++ qc.2)
    | .alt a b => matchListAux ic s fuel a pos ++ matchListAux ic s fuel b pos
    | .star r =>
      (((matchListAux ic s fuel r pos).filter fun pc => pos < pc.1).flatMap fun pc =>
        (matchListAux ic s fuel (.star r) pc.1).map fun qc => (qc.1, pc.2 ++ qc.2))
      ++ [(pos, capsNil)]
    | .grp i r =>
      (matchListAux ic s fuel r pos).map fun pc => (pc.1, pc.2 ++ [(i, pos, pc.1)])

def reFuel (re : RE) (s : List Char) : Nat := (reSize re + 1) * (s.length + 2)

/-- Model of re.search: earliest start position with a match wins, and at
that position the backtracking-preferred match is taken.  Returns
(start, end, captures). -/
def reSearch (ic : Bool) (re : RE) (s : String) : Option (Nat × Nat × Caps) :=
  let cs := s.toList
  (List.range (cs.length + 1)).findSome? fun pos =>
    (matchListAux ic cs (reFuel re cs) re pos).head?.map fun pc => (pos, pc.1, pc.2)

/-- Boolean match test (the truthiness of re.search in the sources). -/
def reTest (ic : Bool) (re : RE) (s : String) : Bool := (reSearch ic re s).isSome

/-- Model of match.group(1): the text of the last recorded span of
capturing group 1. -/
def reSearchGroup1 (ic : Bool) (re : RE) (s : String) : Option String :=
  match reSearch ic re s with
  | none => none
  | some (_, _, caps) =>
    ((caps.filter fun t => t.1 == 1).getLast?).map fun t =>
      String.mk ((s.toList.drop t.2.1).take (t.2.2 - t.2.1))

/-! Pattern combinators used to transcribe the source pattern literals. -/

def rcat : List RE → RE
  | [] => .eps
  | [r] => r
  | r :: rest => .seq r (rcat rest)

def ralt : List RE → RE
  | [] => .eps
  | [r] => r
  | r :: rest => .alt r (ralt rest)

def rstr (s : String) : RE := rcat (s.toList.map .lit)

def ropt (r : RE) : RE := .alt r .eps

def rplus (r : RE) : RE := .seq r (.star r)

def repExact : Nat → RE → RE
  | 0, _ => .eps
  | n + 1, r => .seq r (repExact n r)

def repAtLeast (n : Nat) (r : RE) : RE := .seq (repExact n r) (.star r)

def repAtMost : Nat → RE → RE
  | 0, _ => .eps
  | n + 1, r => ropt (.seq r (repAtMost n r))

/-- The class matched by the escape for whitespace. -/
def wsCls : RE := .cls false (pyWhitespace.map .ch)

/-- The class matched by the escape for a digit. -/
def digitCls : RE := .cls false [.range '0' '9']

/-- The class matched by the escape for a word character. -/
def wordCls : RE := .cls false [.range 'a' 'z', .range 'A' 'Z', .range '0' '9', .ch '_']

def rgrp (r : RE) : RE := .grp 1 r

/-- Transcription of the signed-number group: sign? digits fraction?. -/
def rnumSigned : RE :=
  rgrp (rcat [ropt (ralt [.lit '+', .lit '-']), rplus digitCls,
    ropt (rcat [.lit '.', rplus digitCls])])

/-- Transcription of the unsigned-number group: digits fraction?. -/
def rnumUnsigned : RE :=
  rgrp (rcat [rplus digitCls, ropt (rcat [.lit '.', rplus digitCls])])

/-- Transcription of the bare digits group. -/
def rnumInt : RE := rgrp (rplus digitCls)

/-! ## Security audit framework (security_audit_framework_v2.py)

Embedding of SecurityAuditor: the dangerous-pattern line scanner, the
AST-based analysis, the obfuscation check, and the scoring and pass rule
of scan_submission.  The free-text description/recommendation/snippet
fields of SecurityIssue are elided; severity, category, file path and
line number are kept. -/

structure SecurityIssue where
  severity : String
  category : String
  file_path : String
  line_number : Option Nat := none
deriving DecidableEq, Repr

/-- One entry of the dangerous-pattern table: its key name, its pattern
list and the severity/category it assigns. -/
structure PatternCategory where
  name : String
  patterns : List RE
  severity : String
  category : String

/-- Transcription of the common pattern shape: word boundary, a literal
name, optional whitespace, an opening parenthesis. -/
def patWordCall (nm : String) : RE := rcat [.wordB, rstr nm, .star wsCls, .lit '(']

/-- Transcription of the dangerous-pattern table _initialize_patterns,
in dict insertion order.  Original pattern texts, per category:
code_injection: word-boundary exec/eval/compile with \s* then ( and
__import__\s*\( ; system_access: \bos\.system\s*\( , \bos\.popen\s*\( ,
\bos\.spawn\w*\s*\( , \bcommands\. ; file_system_write:
open\s*\( then [^)]* then a quote class, [wa], a quote class ;
network_access: \brequests\. \burllib\. \bsocket\. \bhttp\. \bsmtplib\.
\bftplib\. ; reflection: \bgetattr\s*\( \bsetattr\s*\( \bhasattr\s*\(
\bdelattr\s*\( \bglobals\s*\(\) \blocals\s*\(\) \bvars\s*\( . -/
def dangerous_patterns : List PatternCategory := [
  ⟨"code_injection",
    [patWordCall "exec", patWordCall "eval", patWordCall "compile",
     rcat [rstr "__import__", .star wsCls, .lit '(']],
    "CRITICAL", "Code Injection"⟩,
  ⟨"system_access",
    [patWordCall "os.system", patWordCall "os.popen",
     rcat [.wordB, rstr "os.spawn", .star wordCls, .star wsCls, .lit '('],
     rcat [.wordB, rstr "commands."]],
    "CRITICAL", "System Access"⟩,
  ⟨"file_system_write",
    [rcat [rstr "open", .star wsCls, .lit '(', .star (.cls true [.ch ')']),
      .cls false [.ch '"', .ch '\x27'], .cls false [.ch 'w', .ch 'a'],
      .cls false [.ch '"', .ch '\x27']]],
    "MEDIUM", "File System Write"⟩,
  ⟨"network_access",
    [rcat [.wordB, rstr "requests."], rcat [.wordB, rstr "urllib."],
     rcat [.wordB, rstr "socket."], rcat [.wordB, rstr "http."],
     rcat [.wordB, rstr "smtplib."], rcat [.wordB, rstr "ftplib."]],
    "HIGH", "Network Access"⟩,
  ⟨"reflection",
    [patWordCall "getattr", patWordCall "setattr", patWordCall "hasattr",
     patWordCall "delattr",
     rcat [.wordB, rstr "globals", .star wsCls, .lit '(', .lit ')'],
     rcat [.wordB, rstr "locals", .star wsCls, .lit '(', .lit ')'],
     patWordCall "vars"],
    "LOW", "Reflection/Dynamic Access"⟩]

/-- Body of the innermost loop of _check_dangerous_patterns: skip comment
lines, otherwise emit one issue when the pattern matches the line
(IGNORECASE search). -/
def lineIssue (pat : RE) (sev cat file_path : String) (nl : Nat × String) : List SecurityIssue :=
  if pyStartsWith (pyStrip nl.2) "#" then []
  else if reTest true pat nl.2 then [⟨sev, cat, file_path, some nl.1⟩]
  else []

/-- The scan of one single rule over all lines, in line order. -/
def scan_lines_for_pattern (pat : RE) (sev cat file_path : String)
    (lines : List (Nat × String)) : List SecurityIssue :=
  (lines.map (lineIssue pat sev cat file_path)).flatten

/-- Embedding of SecurityAuditor._check_dangerous_patterns: the outer loop
runs over the rule table, the middle loop over each category pattern list,
the inner loop over the enumerated lines, appending issues to an
accumulator exactly as the source appends to its issues list. -/
def check_dangerous_patterns (content file_path : String) : List SecurityIssue :=
  let lines := enumerate1 (pySplitlines content)
  dangerous_patterns.foldl (fun acc cat =>
    cat.patterns.foldl (fun acc2 pat =>
      lines.foldl (fun acc3 nl => acc3 ++ lineIssue pat cat.severity cat.category file_path nl)
        acc2) acc) []

/-! ### Python AST fragment and ast.walk

The analyzer inspects parsed syntax trees.  The fragment below covers the
node kinds the analyzer dispatches on (Import, ImportFrom, Call, Name,
Attribute, Constant, List, expression statements, Module); Constant
values are carried as their str() rendering, which is all the analyzer
ever reads of them.  ast.parse itself is the Python standard library, so
a scanned file enters the embedding as its text together with its parsed
tree (or none for a SyntaxError). -/

inductive PyAst where
  | module (body : List PyAst)
  | exprStmt (lineno : Nat) (value : PyAst)
  | call (lineno : Nat) (func : PyAst) (args : List PyAst)
  | name (lineno : Nat) (id : String)
  | constant (lineno : Nat) (value : String)
  | attribute (lineno : Nat) (value : PyAst) (attr : String)
  | listLit (lineno : Nat) (elts : List PyAst)
  | importStmt (lineno : Nat) (names : List String)
  | importFrom (lineno : Nat) (moduleName : Option String)
deriving Repr

def astChildren : PyAst → List PyAst
  | .module body => body
  | .exprStmt _ v => [v]
  | .call _ f args => f :: args
  | .attribute _ v _ => [v]
  | .listLit _ es => es
  | _ => []

mutual

def astSize : PyAst → Nat
  | .module body => 1 + astSizeList body
  | .exprStmt _ v => 1 + astSize v
  | .call _ f args => 1 + astSize f + astSizeList args
  | .attribute _ v _ => 1 + astSize v
  | .listLit _ es => 1 + astSizeList es
  | _ => 1

def astSizeList : List PyAst → Nat
  | [] => 0
  | a :: rest => astSize a + astSizeList rest

end

theorem astSizeList_append (a b : List PyAst) :
    astSizeList (a ++ b) = astSizeList a + astSizeList b := by
  induction a with
  | nil => simp [astSizeList]
  | cons x xs ih => simp [astSizeList, ih]; ring

theorem astSizeList_children_lt (n : PyAst) : astSizeList (astChildren n) < astSize n := by
  cases n <;> simp [astChildren, astSize, astSizeList]

theorem astSizeList_queue_step (n : PyAst) (rest : List PyAst) :
    astSizeList (rest ++ astChildren n) < astSizeList (n :: rest) := by
  have h := astSizeList_children_lt n
  simp only [astSizeList_append, astSizeList]
  omega

/-- Reference breadth-first traversal of ast.walk via a queue, yielding
each node before enqueuing its children at the back. -/
def pyWalkQueue (q : List PyAst) : List PyAst :=
  match q with
  | [] => []
  | n :: rest => n :: pyWalkQueue (rest ++ astChildren n)
termination_by astSizeList q
decreasing_by
  exact astSizeList_queue_step _ _

/-- The same traversal with an explicit step budget, so that concrete
trees evaluate inside the kernel; pyWalkFuel_eq below proves it agrees
with the reference traversal whenever the budget covers the queue. -/
def pyWalkFuel : Nat → List PyAst → List PyAst
  | 0, _ => []
  | _ + 1, [] => []
  | fuel + 1, n :: rest => n :: pyWalkFuel fuel (rest ++ astChildren n)

theorem astSize_pos (n : PyAst) : 0 < astSize n := by
  cases n <;> simp [astSize]

theorem pyWalkFuel_eq (fuel : Nat) (q : List PyAst) (h : astSizeList q ≤ fuel) :
    pyWalkFuel fuel q = pyWalkQueue q := by
  induction fuel generalizing q with
  | zero =>
    cases q with
    | nil => simp [pyWalkFuel, pyWalkQueue]
    | cons n rest =>
      exfalso
      have h1 := astSize_pos n
      simp [astSizeList] at h
      omega
  | succ fuel ih =>
    cases q with
    | nil => simp [pyWalkFuel, pyWalkQueue]
    | cons n rest =>
      have hstep := astSizeList_queue_step n rest
      rw [pyWalkFuel, pyWalkQueue, ih (rest ++ astChildren n) (by omega)]

/-- Embedding of ast.walk on a whole tree: the budget equals the total
node count, which pyWalkFuel_eq shows is always sufficient. -/
def ast_walk (t : PyAst) : List PyAst := pyWalkFuel (astSize t) [t]

theorem ast_walk_eq (t : PyAst) : ast_walk t = pyWalkQueue [t] :=
  pyWalkFuel_eq (astSize t) [t] (by simp [astSizeList])

/-! ### AST-based checks of the security auditor -/

/-- Transcription of _initialize_safe_imports. -/
def safe_imports : List String := [
  "os", "sys", "datetime", "time", "math", "statistics",
  "collections", "typing", "dataclasses", "pathlib",
  "json", "csv", "logging", "argparse", "warnings",
  "queue", "heapq", "bisect", "array", "copy",
  "pickle", "shelve", "gzip", "zipfile",
  "numpy", "pandas", "scipy", "sklearn", "statsmodels",
  "yfinance", "ccxt", "alpha_vantage", "quandl", "bloomberg",
  "investpy", "fredapi", "pandas_datareader",
  "talib", "ta", "finta", "tulip", "tulipy",
  "matplotlib", "seaborn", "plotly", "bokeh",
  "strategy_interface", "exchange_interface", "universal_bot",
  "base64", "hashlib", "hmac", "uuid",
  "unittest", "pytest", "mock",
  "__future__", "abc", "enum", "functools", "itertools",
  "operator", "random", "secrets", "string", "re"]

/-- Modules skipped as common contest submission modules. -/
def contest_common_modules : List String :=
  ["your_strategy", "startup", "backtest_runner", "optimizer"]

/-- Keyword substrings marking a possible strategy-collection import. -/
def strategy_import_keywords : List String :=
  ["strategy", "champion", "winner", "ultimate", "final", "victory",
   "hybrid", "aggressive", "rapid", "smart", "breakout", "momentum"]

/-- Line number of a node (Module carries none). -/
def astLineno : PyAst → Option Nat
  | .module _ => none
  | .exprStmt ln _ => some ln
  | .call ln _ _ => some ln
  | .name ln _ => some ln
  | .constant ln _ => some ln
  | .attribute ln _ _ => some ln
  | .listLit ln _ => some ln
  | .importStmt ln _ => some ln
  | .importFrom ln _ => some ln

/-- Root module names an import node mentions: for Import each alias name
up to the first dot, for ImportFrom its module up to the first dot. -/
def import_module_roots : PyAst → List String
  | .importStmt _ names => names.map (fun n => (pySplitOn '.' n).headD "")
  | .importFrom _ (some m) => [(pySplitOn '.' m).headD ""]
  | _ => []

/-- Embedding of _check_imports_allowlist. -/
def check_imports_allowlist (node : PyAst) (file_path : String) : List SecurityIssue :=
  (import_module_roots node).flatMap fun mod =>
    let is_contest_common := contest_common_modules.contains mod
    let is_strategy_import := strategy_import_keywords.any fun kw => strContains (pyLower mod) kw
    if !(safe_imports.any fun safe => pyStartsWith mod safe) && !is_contest_common then
      if is_strategy_import then
        [⟨"MEDIUM", "Strategy Import Collection", file_path, astLineno node⟩]
      else
        [⟨"LOW", "Unapproved Imports", file_path, astLineno node⟩]
    else []

/-- The narrowly allow-listed dependency-install command test of
_check_dangerous_calls: the joined constant arguments must mention pip,
install and yfinance, and their last whitespace-separated token must be
exactly yfinance. -/
def yf_install_cond (cmd : String) : Bool :=
  strContains cmd "pip" && strContains cmd "install" && strContains cmd "yfinance" &&
    (pySplitWs cmd).getLastD "" == "yfinance"

/-- Scan of the call arguments for a list literal of constants forming an
allow-listed install command (first satisfying list argument wins). -/
def is_yfinance_install_call (args : List PyAst) : Bool :=
  args.any fun arg =>
    match arg with
    | .listLit _ elts =>
      let cmd := " ".intercalate (elts.filterMap fun it =>
        match it with | .constant _ v => some v | _ => none)
      yf_install_cond cmd
    | _ => false

/-- Embedding of _check_dangerous_calls on a Call node.  The method is an
if/elif chain on node.func: the first branch captures every ast.Name func
(emitting only for exec/eval/compile/__import__), the second captures
subprocess attribute calls.  The final elif, which would flag open() calls
with a write mode as File System Write, repeats isinstance(node.func,
ast.Name) and is therefore unreachable: a Name func always takes the first
branch, so no File System Write issue is ever emitted. -/
def check_dangerous_calls (lineno : Nat) (func : PyAst) (args : List PyAst)
    (file_path : String) : List SecurityIssue :=
  match func with
  | .name _ fid =>
    if fid == "exec" || fid == "eval" || fid == "compile" || fid == "__import__" then
      [⟨"CRITICAL", "Code Injection", file_path, some lineno⟩]
    else []
  | .attribute _ (PyAst.name _ vid) _ =>
    if vid == "subprocess" then
      if is_yfinance_install_call args then
        [⟨"LOW", "Dependency Management", file_path, some lineno⟩]
      else
        [⟨"CRITICAL", "System Access", file_path, some lineno⟩]
    else []
  | _ => []

/-- Embedding of _check_attribute_access on an Attribute node. -/
def check_attribute_access (lineno : Nat) (value : PyAst) (attr : String)
    (file_path : String) : List SecurityIssue :=
  match value with
  | .name _ vid =>
    if vid == "os" && (attr == "environ" || attr == "getenv") then
      [⟨"MEDIUM", "Environment Access", file_path, some lineno⟩]
    else []
  | _ => []

/-- Embedding of _analyze_ast: a failed parse yields the single HIGH
Syntax Error issue; otherwise every walked node is dispatched to the
import, call and attribute checks. -/
def analyze_ast (tree : Option PyAst) (file_path : String) : List SecurityIssue :=
  match tree with
  | none => [⟨"HIGH", "Syntax Error", file_path, none⟩]
  | some t =>
    (ast_walk t).flatMap fun node =>
      match node with
      | .importStmt _ _ => check_imports_allowlist node file_path
      | .importFrom _ _ => check_imports_allowlist node file_path
      | .call ln f args => check_dangerous_calls ln f args file_path
      | .attribute ln v attr => check_attribute_access ln v attr file_path
      | _ => []

/-! ### Obfuscation check -/

/-- Transcription of the long encoded-literal pattern: a quote character,
at least 100 characters drawn from the base64 alphabet, up to two padding
signs, a quote character. -/
def b64LiteralPattern : RE :=
  rcat [.cls false [.ch '"', .ch '\x27'],
    repAtLeast 100 (.cls false [.range 'A' 'Z', .range 'a' 'z', .range '0' '9', .ch '+', .ch '/']),
    repAtMost 2 (.lit '='),
    .cls false [.ch '"', .ch '\x27']]

/-- The base64 alphabet used for the density count. -/
def b64Alphabet : List Char :=
  "ABCDEFGHIJKLMNOPQRSTUVWXYZabcdefghijklmnopqrstuvwxyz0123456789+/".toList

/-- Embedding of _check_obfuscation. -/
def check_obfuscation (content file_path : String) : List SecurityIssue :=
  let lines := pySplitlines content
  (enumerate1 lines).flatMap fun nl =>
    if reTest false b64LiteralPattern nl.2 then
      let lo := nl.1 - 3
      let hi := min lines.length (nl.1 + 3)
      let context := "\n".intercalate ((lines.drop lo).take (hi - lo))
      if strContains context "base64" && (strContains context "exec" || strContains context "eval") then
        [⟨"CRITICAL", "Code Obfuscation", file_path, some nl.1⟩]
      else if 200 < ((nl.2.toList.filter fun c => b64Alphabet.contains c).length) then
        [⟨"HIGH", "Suspicious Encoding", file_path, some nl.1⟩]
      else []
    else []

/-! ### Per-file scan and per-submission scoring -/

/-- Embedding of _scan_python_file on decodable content: the pattern
scan, then the AST analysis on the parse of the content (none for a
SyntaxError), then the obfuscation check. -/
def scan_python_file (content : String) (tree : Option PyAst) (file_path : String) :
    List SecurityIssue :=
  check_dangerous_patterns content file_path ++ analyze_ast tree file_path ++
    check_obfuscation content file_path

/-- Count of issues with a given severity, over any issue type. -/
def countBySeverity (sevOf : α → String) (sev : String) (l : List α) : Nat :=
  (l.filter fun i => sevOf i == sev).length

/-- Truth of: some issue of the list is CRITICAL. -/
def hasCriticalBy (sevOf : α → String) (l : List α) : Bool :=
  l.any fun i => sevOf i == "CRITICAL"

/-- Embedding of the scoring block of SecurityAuditor.scan_submission:
start at 100, subtract 40/15/5/1 points per CRITICAL/HIGH/MEDIUM/LOW
issue, clamp below at 0. -/
def security_score (issues : List SecurityIssue) : ℚ :=
  qmax 0 (qsub (qsub (qsub (qsub 100
    (qmul (countBySeverity SecurityIssue.severity "CRITICAL" issues : ℚ) 40))
    (qmul (countBySeverity SecurityIssue.severity "HIGH" issues : ℚ) 15))
    (qmul (countBySeverity SecurityIssue.severity "MEDIUM" issues : ℚ) 5))
    (qmul (countBySeverity SecurityIssue.severity "LOW" issues : ℚ) 1))

/-- Embedding of the pass rule of scan_submission: no CRITICAL issues and
a security score of at least 60. -/
def security_passed (issues : List SecurityIssue) : Bool :=
  countBySeverity SecurityIssue.severity "CRITICAL" issues == 0 &&
    decide (security_score issues ≥ 60)

/-! ## Strict compliance checker (contest_compliance_checker_strict.py)
and data-integrity checker (data_integrity_checker.py): scoring and pass
rules

Both checkers derive passed from their accumulated issue list alone, so
their issues are embedded by the fields the scorers read (severity) plus
the category label. -/

structure StageIssue where
  severity : String
  category : String
deriving DecidableEq, Repr

/-- Embedding of StrictComplianceChecker._calculate_compliance_score:
100 minus 25/10/5/2 per CRITICAL/HIGH/MEDIUM/LOW issue, clamped at 0. -/
def compliance_score (issues : List StageIssue) : ℚ :=
  qmax 0 (qsub (qsub (qsub (qsub 100
    (qmul (countBySeverity StageIssue.severity "CRITICAL" issues : ℚ) 25))
    (qmul (countBySeverity StageIssue.severity "HIGH" issues : ℚ) 10))
    (qmul (countBySeverity StageIssue.severity "MEDIUM" issues : ℚ) 5))
    (qmul (countBySeverity StageIssue.severity "LOW" issues : ℚ) 2))

/-- Embedding of the pass rule of StrictComplianceChecker.check_submission:
no CRITICAL issue and a score of at least 80. -/
def compliance_passed (issues : List StageIssue) : Bool :=
  !hasCriticalBy StageIssue.severity issues && decide (compliance_score issues ≥ 80)

/-- Embedding of DataIntegrityChecker._calculate_integrity_score:
100 minus 30/15/8/3 per CRITICAL/HIGH/MEDIUM/LOW issue, clamped at 0. -/
def integrity_score (issues : List StageIssue) : ℚ :=
  qmax 0 (qsub (qsub (qsub (qsub 100
    (qmul (countBySeverity StageIssue.severity "CRITICAL" issues : ℚ) 30))
    (qmul (countBySeverity StageIssue.severity "HIGH" issues : ℚ) 15))
    (qmul (countBySeverity StageIssue.severity "MEDIUM" issues : ℚ) 8))
    (qmul (countBySeverity StageIssue.severity "LOW" issues : ℚ) 3))

/-- Embedding of the pass rule of DataIntegrityChecker.check_submission:
no CRITICAL issue and a score of at least 70. -/
def integrity_passed (issues : List StageIssue) : Bool :=
  !hasCriticalBy StageIssue.severity issues && decide (integrity_score issues ≥ 70)

/-! ## Contest rules verifier (contest_rules_verifier.py)

Embedding of the metric extractor (markdown tables, free-text regex
patterns, CSV fallback), the financial-constraint validation and the
scoring and pass rule.  The description, file_path and recommendation
free-text fields of RuleViolation are elided; severity, category,
metric_value and threshold are kept. -/

structure RuleViolation where
  severity : String
  category : String
  metric_value : Option ℚ := none
  threshold : Option ℚ := none
deriving DecidableEq, Repr

/-- The extracted-metrics dictionary: a some field models the key being
present.  The sharpe field carries the dictionary key for the Sharpe
ratio. -/
structure Metrics where
  total_return : Option ℚ := none
  total_pnl : Option ℚ := none
  max_drawdown : Option ℚ := none
  total_trades : Option Int := none
  sharpe : Option ℚ := none
  win_rate : Option ℚ := none
deriving DecidableEq, Repr

def emptyMetrics : Metrics := {}

def optOr (upd old : Option α) : Option α :=
  match upd with
  | some v => some v
  | none => old

/-- Model of dict.update: keys present in upd overwrite old. -/
def metricsUpdate (old upd : Metrics) : Metrics :=
  ⟨optOr upd.total_return old.total_return,
   optOr upd.total_pnl old.total_pnl,
   optOr upd.max_drawdown old.max_drawdown,
   optOr upd.total_trades old.total_trades,
   optOr upd.sharpe old.sharpe,
   optOr upd.win_rate old.win_rate⟩

/-- Transcription of self.STARTING_CAPITAL. -/
def STARTING_CAPITAL : ℚ := 10000

/-- Transcription of self.MAX_DRAWDOWN. -/
def MAX_DRAWDOWN : ℚ := 50

/-- Transcription of self.MIN_TRADES. -/
def MIN_TRADES : Int := 10

/-- The class of whitespace or colon characters. -/
def clsWsColon : RE := .cls false (pyWhitespace.map ClsItem.ch ++ [.ch ':'])

/-- The class of a colon or whitespace characters. -/
def clsColonWs : RE := .cls false ([ClsItem.ch ':'] ++ pyWhitespace.map ClsItem.ch)

/-- The negated class excluding a pipe character. -/
def clsNotPipe : RE := .cls true [.ch '|']

/-- One entry of the pnl_patterns list: its transcribed pattern and the
two constant substring tests on the pattern literal itself that the
branch condition performs (whether the pattern text contains the word
return, and whether it contains a percent sign). -/
structure PnlPattern where
  re : RE
  hasReturnText : Bool
  hasPercentText : Bool

/-- Transcription of pnl_patterns, in order.  Original texts:
1 (?:total pnl|final pnl|profit|return) then [\s:]* then \$? then the
  signed-number group;
2 (?:total return|final return|combined) then [\s:]* then the
  signed-number group then %;
3 \$ then the unsigned-number group then \s* then (?:profit|pnl|return);
4 the unsigned-number group then % then \s* then (?:return|profit);
5 \| \s* [*]* (?:combined|total) [*]* \s* \| \s* [*]* then the
  signed-number group then %? [*]* \s* \|;
6 return then [^\|]* then \| \s* then the unsigned-number group then %. -/
def pnl_patterns : List PnlPattern := [
  ⟨rcat [ralt [rstr "total pnl", rstr "final pnl", rstr "profit", rstr "return"],
     .star clsWsColon, ropt (.lit '$'), rnumSigned], true, false⟩,
  ⟨rcat [ralt [rstr "total return", rstr "final return", rstr "combined"],
     .star clsWsColon, rnumSigned, .lit '%'], true, true⟩,
  ⟨rcat [.lit '$', rnumUnsigned, .star wsCls,
     ralt [rstr "profit", rstr "pnl", rstr "return"]], true, false⟩,
  ⟨rcat [rnumUnsigned, .lit '%', .star wsCls, ralt [rstr "return", rstr "profit"]],
     true, true⟩,
  ⟨rcat [.lit '|', .star wsCls, .star (.lit '*'), ralt [rstr "combined", rstr "total"],
     .star (.lit '*'), .star wsCls, .lit '|', .star wsCls, .star (.lit '*'),
     rnumSigned, ropt (.lit '%'), .star (.lit '*'), .star wsCls, .lit '|'], false, true⟩,
  ⟨rcat [rstr "return", .star clsNotPipe, .lit '|', .star wsCls, rnumUnsigned, .lit '%'],
     true, true⟩]

/-- The pnl/return loop of extract_metrics_from_text: first pattern whose
match parses as a float assigns both total_return and total_pnl (the
branch keyed on the constant substring tests of the pattern literal and
on value at most 100) and breaks; a failed parse falls through to the
next pattern. -/
def pnlLoop : List PnlPattern → String → Metrics → Metrics
  | [], _, m => m
  | p :: rest, content, m =>
    match reSearchGroup1 false p.re content with
    | none => pnlLoop rest content m
    | some g =>
      match pyParseFloat g with
      | none => pnlLoop rest content m
      | some v =>
        if p.hasReturnText || p.hasPercentText || v ≤ 100 then
          { m with total_return := some v, total_pnl := some (qdiv (qmul v STARTING_CAPITAL) 100) }
        else
          { m with total_pnl := some v, total_return := some (qmul (qdiv v STARTING_CAPITAL) 100) }

/-- Transcription of drawdown_patterns, in order.  Original texts:
1 (?:max drawdown|maximum drawdown|worst drawdown|max dd) then [\s:]*
  then the signed-number group then %?;
2 drawdown then [\s:]* then the signed-number group then %;
3 \| \s* [*]* (?:combined|total) [*]* \s* \| [^|]* \| \s* then the
  signed-number group then %? \s* \|;
4 max dd then [^\|]* then \| \s* then the unsigned-number group then %. -/
def drawdown_patterns : List RE := [
  rcat [ralt [rstr "max drawdown", rstr "maximum drawdown", rstr "worst drawdown",
     rstr "max dd"], .star clsWsColon, rnumSigned, ropt (.lit '%')],
  rcat [rstr "drawdown", .star clsWsColon, rnumSigned, .lit '%'],
  rcat [.lit '|', .star wsCls, .star (.lit '*'), ralt [rstr "combined", rstr "total"],
     .star (.lit '*'), .star wsCls, .lit '|', .star clsNotPipe, .lit '|', .star wsCls,
     rnumSigned, ropt (.lit '%'), .star wsCls, .lit '|'],
  rcat [rstr "max dd", .star clsNotPipe, .lit '|', .star wsCls, rnumUnsigned, .lit '%']]

/-- The drawdown loop: first parsed match assigns the absolute value and
breaks. -/
def ddLoop : List RE → String → Metrics → Metrics
  | [], _, m => m
  | p :: rest, content, m =>
    match reSearchGroup1 false p content with
    | none => ddLoop rest content m
    | some g =>
      match pyParseFloat g with
      | none => ddLoop rest content m
      | some v => { m with max_drawdown := some |v| }

/-- Transcription of trade_patterns, in order.  Original texts:
1 (?:total trades|number of trades|trades executed) then [\s:]* then the
  digits group;
2 the digits group then \s* then (?:trades|transactions);
3 \| \s* [*]* (?:combined|total) [*]* \s* \| [^|]* \| [^|]* \| [^|]* \|
  \s* then the digits group then \s* \|;
4 trades then [^\|]* then \| \s* then the digits group then \s* \|. -/
def trade_patterns : List RE := [
  rcat [ralt [rstr "total trades", rstr "number of trades", rstr "trades executed"],
     .star clsWsColon, rnumInt],
  rcat [rnumInt, .star wsCls, ralt [rstr "trades", rstr "transactions"]],
  rcat [.lit '|', .star wsCls, .star (.lit '*'), ralt [rstr "combined", rstr "total"],
     .star (.lit '*'), .star wsCls, .lit '|', .star clsNotPipe, .lit '|', .star clsNotPipe,
     .lit '|', .star clsNotPipe, .lit '|', .star wsCls, rnumInt, .star wsCls, .lit '|'],
  rcat [rstr "trades", .star clsNotPipe, .lit '|', .star wsCls, rnumInt, .star wsCls,
     .lit '|']]

/-- The trade-count loop: first match parsed by int assigns and breaks. -/
def trLoop : List RE → String → Metrics → Metrics
  | [], _, m => m
  | p :: rest, content, m =>
    match reSearchGroup1 false p content with
    | none => trLoop rest content m
    | some g =>
      match pyParseInt g with
      | none => trLoop rest content m
      | some v => { m with total_trades := some v }

/-- Transcription of the entry-169 Sharpe pattern: combined: then \s*
then [\d\.]+ / [\d\.]+ then a space, =, a space, ** then the
signed-number group then **. -/
def sharpe_special_pattern : RE :=
  rcat [rstr "combined:", .star wsCls,
    rplus (.cls false [.range '0' '9', .ch '.']), .lit '/',
    rplus (.cls false [.range '0' '9', .ch '.']),
    rstr " = ", rstr "**", rnumSigned, rstr "**"]

/-- The dedicated Sharpe extraction: on a parsed match, assign only when
the value lies in the plausible range from -5 to 10. -/
def sharpeSpecialStep (content : String) (m : Metrics) : Metrics :=
  match reSearchGroup1 false sharpe_special_pattern content with
  | none => m
  | some g =>
    match pyParseFloat g with
    | none => m
    | some v => if -5 ≤ v ∧ v ≤ 10 then { m with sharpe := some v } else m

/-- Transcription of the generic sharpe_patterns, in order.  Original
texts:
1 sharpe ratio then [:\s]* then the signed-number group;
2 (?:^|\s) then sharpe then [:\s]* then the signed-number group then
  (?:\s|$). -/
def sharpe_generic_patterns : List RE := [
  rcat [rstr "sharpe ratio", .star clsColonWs, rnumSigned],
  rcat [ralt [.bol, wsCls], rstr "sharpe", .star clsColonWs, rnumSigned,
    ralt [wsCls, .eol]]]

/-- The generic Sharpe loop body: a parsed in-range match assigns and
breaks; an out-of-range or unparseable match falls through to the next
pattern. -/
def sharpeGenericLoop : List RE → String → Metrics → Metrics
  | [], _, m => m
  | p :: rest, content, m =>
    match reSearchGroup1 false p content with
    | none => sharpeGenericLoop rest content m
    | some g =>
      match pyParseFloat g with
      | none => sharpeGenericLoop rest content m
      | some v =>
        if -5 ≤ v ∧ v ≤ 10 then { m with sharpe := some v }
        else sharpeGenericLoop rest content m

/-- The generic Sharpe pass runs only when the sharpe key is not yet
populated. -/
def sharpeGenericStep (content : String) (m : Metrics) : Metrics :=
  if m.sharpe.isSome then m else sharpeGenericLoop sharpe_generic_patterns content m

/-- Transcription of winrate_patterns, in order.  Original texts:
1 (?:win rate|success rate|winning percentage) then [\s:]* then the
  unsigned-number group then %?;
2 the unsigned-number group then % then \s* then (?:win|success|wins). -/
def winrate_patterns : List RE := [
  rcat [ralt [rstr "win rate", rstr "success rate", rstr "winning percentage"],
    .star clsWsColon, rnumUnsigned, ropt (.lit '%')],
  rcat [rnumUnsigned, .lit '%', .star wsCls, ralt [rstr "win", rstr "success", rstr "wins"]]]

/-- The win-rate loop: first parsed match assigns and breaks. -/
def wrLoop : List RE → String → Metrics → Metrics
  | [], _, m => m
  | p :: rest, content, m =>
    match reSearchGroup1 false p content with
    | none => wrLoop rest content m
    | some g =>
      match pyParseFloat g with
      | none => wrLoop rest content m
      | some v => { m with win_rate := some v }

/-! ### Markdown-table extraction (extract_from_markdown_table) -/

/-- The characters stripped from format-1 table cells. -/
def fmt1StripSet : List Char := [' ', '|', '*']

/-- The characters stripped from format-2 table cells. -/
def fmt2StripSet : List Char := [' ', '|', '*', '+']

/-- Parse of one lowercased combined/total row of a format-1 table.  The
whole block sits in a try: on a failed number conversion the metrics
mutated so far are kept and the row loop continues (second component
false); reaching the end of the block returns the metrics early (second
component true).  Rows with fewer than five cells do nothing. -/
def fmt1ParseRow (row : String) (m : Metrics) : Metrics × Bool :=
  let cells := (pySplitOn '|' row).map (fun c => pyStripChars fmt1StripSet c)
  if 5 ≤ cells.length then
    let return_str := pyStrip (pyReplace (cells.getD 2 "") "%" "")
    let step1 : Metrics × Bool :=
      if return_str == "" then (m, true)
      else
        match pyParseFloat return_str with
        | some v =>
          ({ m with
              total_return := some v,
              total_pnl := some (qdiv (qmul v STARTING_CAPITAL) 100) }, true)
        | none => (m, false)
    if !step1.2 then (step1.1, false)
    else
      let m1 := step1.1
      let dd_str := pyStrip (pyReplace (cells.getD 3 "") "%" "")
      let step2 : Metrics × Bool :=
        if dd_str == "" then (m1, true)
        else
          match pyParseFloat dd_str with
          | some v => ({ m1 with max_drawdown := some |v| }, true)
          | none => (m1, false)
      if !step2.2 then (step2.1, false)
      else
        let m2 := step2.1
        let sharpe_str := pyStrip (cells.getD 4 "")
        let step3 : Metrics × Bool :=
          if sharpe_str == "" then (m2, true)
          else
            match pyParseFloat sharpe_str with
            | some v => ({ m2 with sharpe := some v }, true)
            | none => (m2, false)
        if !step3.2 then (step3.1, false)
        else
          let m3 := step3.1
          if 6 ≤ cells.length then
            let trades_str := pyStrip (cells.getD 5 "")
            if trades_str == "" then (m3, true)
            else
              match pyParseInt trades_str with
              | some v => ({ m3 with total_trades := some v }, true)
              | none => (m3, false)
          else (m3, true)
  else (m, false)

/-- Parse of one row of a format-2 metric/value table: an elif chain on
the lowercased first cell; a failed conversion leaves the metrics of this
row unchanged and the loop continues. -/
def fmt2ParseRow (row : String) (m : Metrics) : Metrics :=
  if !strContains row "|" then m
  else
    let cells := (pySplitOn '|' row).map (fun c => pyStripChars fmt2StripSet c)
    if 2 ≤ cells.length then
      let metric_name := pyLower (cells.getD 0 "")
      let metric_value := cells.getD 1 ""
      if strContains metric_name "combined return" || strContains metric_name "total return" then
        let vs := pyStrip (pyReplace (pyReplace (pyReplace metric_value "%" "") "+" "") "**" "")
        if vs == "" then m
        else
          match pyParseFloat vs with
          | some v =>
            { m with
                total_return := some v,
                total_pnl := some (qdiv (qmul v STARTING_CAPITAL) 100) }
          | none => m
      else if strContains metric_name "max drawdown" || strContains metric_name "drawdown" then
        let vs := pyStrip (pyReplace (pyReplace metric_value "%" "") "**" "")
        if vs == "" then m
        else
          match pyParseFloat vs with
          | some v => { m with max_drawdown := some |v| }
          | none => m
      else if strContains metric_name "total trades" then
        let vs := pyStrip (pyReplace metric_value "**" "")
        match reSearchGroup1 false rnumInt vs with
        | some g =>
          match pyParseInt g with
          | some n => { m with total_trades := some n }
          | none => m
        | none => m
      else m
    else m

/-- The inner row loop of a format-1 table: rows i to min(i+10, n)-1 of
the lowercased lines; a combined/total row with a pipe is parsed; an
early return inside the parse ends the whole extraction. -/
def fmt1Scan (lines : List String) : Nat → Nat → Metrics → Metrics × Bool
  | 0, _, m => (m, false)
  | fuel + 1, j, m =>
    let row := pyLower (lines.getD j "")
    if (strContains row "combined" || strContains row "total") && strContains row "|" then
      let res := fmt1ParseRow row m
      if res.2 then (res.1, true) else fmt1Scan lines fuel (j + 1) res.1
    else fmt1Scan lines fuel (j + 1) m

/-- The inner row loop of a format-2 table: rows i to min(i+15, n)-1. -/
def fmt2Scan (lines : List String) : Nat → Nat → Metrics → Metrics
  | 0, _, m => m
  | fuel + 1, j, m => fmt2Scan lines fuel (j + 1) (fmt2ParseRow (lines.getD j "") m)

/-- The outer line loop of extract_from_markdown_table, dispatching on
the two table formats; a format-1 early return ends the loop, and the
second component records that the function returned early. -/
def efmtOuter (lines : List String) : Nat → Nat → Metrics → Metrics × Bool
  | 0, _, m => (m, false)
  | fuel + 1, i, m =>
    let line := lines.getD i ""
    let line_lower := pyLower line
    if (strContains line_lower "symbol" || strContains line_lower "combined") &&
        strContains line "|" then
      let stop := min (i + 10) lines.length
      let res := fmt1Scan lines (stop - i) i m
      if res.2 then (res.1, true) else efmtOuter lines fuel (i + 1) res.1
    else if strContains line_lower "metric" && strContains line_lower "value" &&
        strContains line "|" then
      let stop := min (i + 15) lines.length
      efmtOuter lines fuel (i + 1) (fmt2Scan lines (stop - i) i m)
    else efmtOuter lines fuel (i + 1) m

/-- Transcription of the average-drawdown pattern: a digits.digits group
then %. -/
def avg_drawdown_pattern : RE :=
  rcat [rgrp (rcat [rplus digitCls, .lit '.', rplus digitCls]), .lit '%']

/-- The fallback over lines mentioning average drawdown with a percent
sign: the first such line is searched and then the scan breaks whether or
not the pattern matched. -/
def avgDdScan : List String → Metrics → Metrics
  | [], m => m
  | l :: rest, m =>
    if strContains (pyLower l) "average drawdown" && strContains l "%" then
      match reSearchGroup1 false avg_drawdown_pattern l with
      | some g =>
        match pyParseFloat g with
        | some v => { m with max_drawdown := some v }
        | none => m
      | none => m
    else avgDdScan rest m

/-- Embedding of ContestRulesVerifier.extract_from_markdown_table.  A
format-1 early return exits the whole function, so the average-drawdown
fallback runs only when the loop finished normally and no max_drawdown
was extracted. -/
def extract_from_markdown_table (content : String) : Metrics :=
  let lines := pySplitOn '\n' content
  let res := efmtOuter lines lines.length 0 emptyMetrics
  if res.2 then res.1
  else if res.1.max_drawdown.isNone then avgDdScan lines res.1 else res.1

/-- Embedding of ContestRulesVerifier.extract_metrics_from_text: the
table pass populates the dictionary first (merging an empty table result
is the identity, so the non-empty guard of the source is absorbed), then
the pnl, drawdown, trade-count, dedicated-Sharpe, generic-Sharpe and
win-rate passes run in order over the lowercased content. -/
def extract_metrics_from_text (content : String) : Metrics :=
  let content_lower := pyLower content
  let m0 := metricsUpdate emptyMetrics (extract_from_markdown_table content)
  let m1 := pnlLoop pnl_patterns content_lower m0
  let m2 := ddLoop drawdown_patterns content_lower m1
  let m3 := trLoop trade_patterns content_lower m2
  let m4 := sharpeSpecialStep content_lower m3
  let m5 := sharpeGenericStep content_lower m4
  wrLoop winrate_patterns content_lower m5

/-! ### CSV fallback (extract_metrics_from_csv, extract_performance_metrics) -/

/-- A cell of a parsed data file: a number, a string, or a missing value
(dropped by dropna). -/
inductive CsvVal where
  | num (q : ℚ)
  | str (s : String)
  | blank
deriving DecidableEq, Repr

/-- A parsed data file: named columns of cells.  Files the source skips
(oversized or unreadable) simply do not appear in the list handed to the
extractor. -/
structure CsvFrame where
  cols : List (String × List CsvVal)
deriving Repr

def csvDropna (l : List CsvVal) : List CsvVal := l.filter (fun v => v ≠ CsvVal.blank)

def csvNums? (l : List CsvVal) : Option (List ℚ) :=
  l.mapM fun v => match v with | .num q => some q | _ => none

def runningMax : List ℚ → ℚ → List ℚ
  | [], _ => []
  | q :: rest, acc => qmax acc q :: runningMax rest (qmax acc q)

/-- The cumulative maximum of a series (pandas cummax). -/
def cummax : List ℚ → List ℚ
  | [] => []
  | q :: rest => q :: runningMax rest q

def listMinQ : List ℚ → ℚ → ℚ
  | [], acc => acc
  | q :: rest, acc => listMinQ rest (qmin acc q)

def value_col_terms : List String := ["portfolio", "value", "pnl", "balance", "equity"]

def trade_col_terms : List String := ["trade", "signal", "position", "action"]

/-- Embedding of extract_metrics_from_csv: the first portfolio-like
column yields return, pnl and drawdown when its first value is positive;
the first trade-like column yields the count of entries that are not
zero, HOLD, hold or empty.  A value column holding any non-numeric entry
makes the numeric block raise and be swallowed (mixed-type columns are
modelled as failing as a whole), leaving those keys unset. -/
def extract_metrics_from_csv (df : CsvFrame) : Metrics :=
  let value_cols := df.cols.filter fun c => value_col_terms.any fun t => strContains (pyLower c.1) t
  let m1 : Metrics :=
    match value_cols.head? with
    | none => emptyMetrics
    | some col =>
      let values := csvDropna col.2
      if values.length = 0 then emptyMetrics
      else
        match csvNums? values with
        | none => emptyMetrics
        | some qs =>
          let initial_value := qs.headD 0
          let final_value := qs.getLastD 0
          if 0 < initial_value then
            let drawdown := (qs.zip (cummax qs)).map fun p => qmul (qdiv (qsub p.1 p.2) p.2) 100
            { emptyMetrics with
                total_return := some (qmul (qdiv (qsub final_value initial_value) initial_value) 100),
                total_pnl := some (qsub final_value initial_value),
                max_drawdown := some |listMinQ drawdown (drawdown.headD 0)| }
          else emptyMetrics
  let trade_cols := df.cols.filter fun c => trade_col_terms.any fun t => strContains (pyLower c.1) t
  match trade_cols.head? with
  | none => m1
  | some col =>
    let trades := csvDropna col.2
    let valid_trades := trades.filter fun v =>
      match v with
      | .num q => q ≠ 0
      | .str s => s ≠ "HOLD" && s ≠ "hold" && s ≠ ""
      | .blank => false
    { m1 with total_trades := some (valid_trades.length : Int) }

/-- Embedding of validate_extracted_metrics: one HIGH violation when any
of total_pnl, max_drawdown, total_trades is missing. -/
def validate_extracted_metrics (m : Metrics) : List RuleViolation :=
  if m.total_pnl.isNone || m.max_drawdown.isNone || m.total_trades.isNone then
    [⟨"HIGH", "Performance Metrics", none, none⟩]
  else []

/-- Embedding of extract_performance_metrics: the report-derived metrics
are updated in turn by each parsed data file (dict.update, so data-file
values overwrite), then validated. -/
def extract_performance_metrics (backtest_data : Metrics) (csvs : List CsvFrame) : Metrics :=
  csvs.foldl (fun m df => metricsUpdate m (extract_metrics_from_csv df)) backtest_data

/-! ### Financial constraints, scoring, pass rule -/

/-- Embedding of validate_financial_constraints: the drawdown and
trade-count disqualification thresholds, the implied starting-capital
check, the return realism checks, and the Sharpe reasonableness checks,
emitting violations in source order. -/
def validate_financial_constraints (m : Metrics) : List RuleViolation :=
  (match m.max_drawdown with
   | some dd =>
     if dd ≥ MAX_DRAWDOWN then
       [⟨"CRITICAL", "DISQUALIFICATION - Drawdown Violation", some dd, some MAX_DRAWDOWN⟩]
     else []
   | none => []) ++
  (match m.total_trades with
   | some t =>
     if t < MIN_TRADES then
       [⟨"CRITICAL", "DISQUALIFICATION - Insufficient Trading", some (t : ℚ), some (MIN_TRADES : ℚ)⟩]
     else []
   | none => []) ++
  (match m.total_pnl, m.total_return with
   | some pnl, some ret =>
     if ret ≠ 0 then
       let implied_capital := |qdiv pnl (qdiv ret 100)|
       if 500 < |qsub implied_capital STARTING_CAPITAL| then
         [⟨"CRITICAL", "Starting Capital Violation", some implied_capital, some STARTING_CAPITAL⟩]
       else []
     else []
   | _, _ => []) ++
  (match m.total_return with
   | some r =>
     if 1000 < r then [⟨"HIGH", "Unrealistic Performance", some r, some 1000⟩]
     else if r < -90 then [⟨"MEDIUM", "Poor Performance", some r, some (-90)⟩]
     else []
   | none => []) ++
  (match m.sharpe with
   | some s =>
     if 10 < s then [⟨"MEDIUM", "Unrealistic Sharpe", none, none⟩]
     else if s < -2 then [⟨"LOW", "Poor Risk-Adjusted Return", none, none⟩]
     else []
   | none => [])

/-- The per-violation deduction of calculate_rules_score. -/
def ruleDeduction (v : RuleViolation) : ℚ :=
  if v.severity == "CRITICAL" then 30
  else if v.severity == "HIGH" then 15
  else if v.severity == "MEDIUM" then 8
  else if v.severity == "LOW" then 3
  else 0

/-- The performance bonuses of calculate_rules_score. -/
def ruleBonus (m : Metrics) : ℚ :=
  qadd (qadd
    (match m.total_return with
     | some r => if 25 < r then 10 else if 10 < r then 5 else 0
     | none => 0)
    (match m.max_drawdown with
     | some dd => if dd < 10 then 5 else if dd < 20 then 2 else 0
     | none => 0))
    (match m.sharpe with
     | some s => if 2 < s then 5 else if 1 < s then 2 else 0
     | none => 0)

/-- Embedding of calculate_rules_score: 100 minus the summed deductions
plus the bonuses, clamped into the closed interval from 0 to 100. -/
def calculate_rules_score (violations : List RuleViolation) (m : Metrics) : ℚ :=
  qmax 0 (qmin 100 (qadd (violations.foldl (fun acc v => qsub acc (ruleDeduction v)) 100) (ruleBonus m)))

/-- Embedding of the pass rule of ContestRulesVerifier.check_submission:
score at least 70, no CRITICAL violation, at most two HIGH violations. -/
def contest_rules_passed (violations : List RuleViolation) (m : Metrics) : Bool :=
  decide (calculate_rules_score violations m ≥ 70) &&
    countBySeverity RuleViolation.severity "CRITICAL" violations == 0 &&
    decide (countBySeverity RuleViolation.severity "HIGH" violations ≤ 2)

/-! ## Pipeline orchestrator (contest_evaluation_orchestrator.py)

Embedding of run_full_evaluation and its four stage wrappers.  Each stage
tool runs as an external step whose outcome is one of: the tool exits
non-zero, its results file is absent, the wrapper raises, or it succeeds;
in the success case the results file holds exactly one entry per
submission id the orchestrator passed on the command line whose directory
exists (each per-stage main loops over those ids, skipping missing
directories).  The per-submission verdicts (the parsed passed flag and
score of each checker) enter as a function from submission id to outcome,
and the existence of a submission directory as a predicate. -/

/-- The per-submission payload the orchestrator stores per stage. -/
structure StageOutcome where
  passed : Bool
  score : ℚ
deriving DecidableEq, Repr

/-- How a stage invocation ended. -/
inductive InvOutcome where
  | toolFailed
  | fileMissing
  | crashed
  | ok
deriving DecidableEq, Repr

/-- The id list a per-stage tool actually evaluates: the submissions
named on its command line whose directories exist. -/
def evaluated_set (existsP : String → Bool) (ids : List String) : List String :=
  ids.filter existsP

/-- The results array a per-stage tool writes: one entry per evaluated
submission. -/
def stage_tool_results (existsP : String → Bool) (check : String → StageOutcome)
    (ids : List String) : List (String × StageOutcome) :=
  (evaluated_set existsP ids).map fun s => (s, check s)

/-- Ids whose recorded outcome is passed, in order. -/
def passedIds (rs : List (String × StageOutcome)) : List String :=
  (rs.filter fun r => r.2.passed).map fun r => r.1

/-- Embedding of run_security_audit: any failure (non-zero exit, missing
summary file, exception) records nothing and returns no survivors; on
success every summary entry is recorded and the passing ids survive.  The
security tool scans the whole base path, so its summary enters as a
parameter. -/
def run_security_audit (inv : InvOutcome) (summary : List (String × StageOutcome)) :
    List (String × StageOutcome) × List String :=
  match inv with
  | .ok => (summary, passedIds summary)
  | _ => ([], [])

/-- Embedding of run_compliance_check: a non-zero exit, a missing results
file or an exception falls back to returning the survivors unchanged,
recording nothing; on success the tool output is recorded and filtered. -/
def run_compliance_check (inv : InvOutcome) (existsP : String → Bool)
    (check : String → StageOutcome) (survivors : List String) :
    List (String × StageOutcome) × List String :=
  match inv with
  | .ok =>
    let rs := stage_tool_results existsP check survivors
    (rs, passedIds rs)
  | _ => ([], survivors)

/-- Embedding of run_data_integrity_check: a non-zero exit, a missing
results file or an exception records nothing and returns no survivors;
on success the tool output is recorded and filtered. -/
def run_data_integrity_check (inv : InvOutcome) (existsP : String → Bool)
    (check : String → StageOutcome) (survivors : List String) :
    List (String × StageOutcome) × List String :=
  match inv with
  | .ok =>
    let rs := stage_tool_results existsP check survivors
    (rs, passedIds rs)
  | _ => ([], [])

/-- Embedding of run_contest_rules_verification: any failure records
every survivor as passed with the default score 75 and returns the
survivors unchanged; on success the tool output is recorded and
filtered. -/
def run_contest_rules_verification (inv : InvOutcome) (existsP : String → Bool)
    (check : String → StageOutcome) (survivors : List String) :
    List (String × StageOutcome) × List String :=
  match inv with
  | .ok =>
    let rs := stage_tool_results existsP check survivors
    (rs, passedIds rs)
  | _ => (survivors.map fun s => (s, ⟨true, 75⟩), survivors)

/-- The recorded stage results and intermediate survivor sets of one
automated pipeline run. -/
structure PipelineRun where
  secRecorded : List (String × StageOutcome)
  secSurvivors : List String
  compRecorded : List (String × StageOutcome)
  compSurvivors : List String
  diRecorded : List (String × StageOutcome)
  diSurvivors : List String
  rulesRecorded : List (String × StageOutcome)
  rulesSurvivors : List String

/-- Embedding of run_full_evaluation: the four stages run strictly in
order, each consuming the survivor list the previous stage returned. -/
def run_full_evaluation (secInv compInv diInv rulesInv : InvOutcome)
    (secSummary : List (String × StageOutcome))
    (compExists diExists rulesExists : String → Bool)
    (compCheck diCheck rulesCheck : String → StageOutcome) : PipelineRun :=
  let sec := run_security_audit secInv secSummary
  let comp := run_compliance_check compInv compExists compCheck sec.2
  let di := run_data_integrity_check diInv diExists diCheck comp.2
  let rules := run_contest_rules_verification rulesInv rulesExists rulesCheck di.2
  ⟨sec.1, sec.2, comp.1, comp.2, di.1, di.2, rules.1, rules.2⟩

/-! ### Final ranking (generate_final_ranking) -/

/-- The embedded FinalRecord (SubmissionResult): submission id, per-stage
passed flags and scores, overall score, final status.  The participant,
issue-summary and timestamp free-text fields are elided. -/
structure SubmissionResult where
  submission_id : String
  security_passed : Bool
  security_score : ℚ
  compliance_passed : Bool
  compliance_score : ℚ
  data_integrity_passed : Bool
  data_integrity_score : ℚ
  contest_rules_passed : Bool
  contest_rules_score : ℚ
  overall_score : ℚ
  final_status : String
deriving DecidableEq, Repr

/-- The security stage weight (0.3 in the source). -/
def securityWeight : ℚ := mkRat 3 10

/-- The compliance stage weight (0.25 in the source). -/
def complianceWeight : ℚ := mkRat 1 4

/-- The data-integrity stage weight (0.25 in the source). -/
def dataIntegrityWeight : ℚ := mkRat 1 4

/-- The contest-rules stage weight (0.2 in the source). -/
def contestRulesWeight : ℚ := mkRat 1 5

/-- The default outcome used for a submission missing from a stage map:
not passed, score 0. -/
def missingStage : StageOutcome := ⟨false, 0⟩

/-- Synthesis of one final record from the four per-stage lookups, as in
the body of the loop of generate_final_ranking. -/
def mkSubmissionResult (id : String)
    (sec comp di rules : Option StageOutcome) : SubmissionResult :=
  let s := sec.getD missingStage
  let c := comp.getD missingStage
  let d := di.getD missingStage
  let r := rules.getD missingStage
  { submission_id := id,
    security_passed := s.passed, security_score := s.score,
    compliance_passed := c.passed, compliance_score := c.score,
    data_integrity_passed := d.passed, data_integrity_score := d.score,
    contest_rules_passed := r.passed, contest_rules_score := r.score,
    overall_score := qadd (qadd (qadd (qmul s.score securityWeight)
      (qmul c.score complianceWeight)) (qmul d.score dataIntegrityWeight))
      (qmul r.score contestRulesWeight),
    final_status := if s.passed && c.passed && d.passed && r.passed then "PASS" else "FAIL" }

/-- Stable insertion of a record into a list already sorted by overall
score descending: the record goes after every earlier record whose score
is at least its own.  This is the unique stable descending sort, which is
what list.sort(key, reverse=True) computes. -/
def insertByScoreDesc (x : SubmissionResult) : List SubmissionResult → List SubmissionResult
  | [] => [x]
  | y :: ys =>
    if x.overall_score ≤ y.overall_score then y :: insertByScoreDesc x ys
    else x :: y :: ys

/-- Stable sort by overall score descending. -/
def sortByScoreDesc (l : List SubmissionResult) : List SubmissionResult :=
  l.foldl (fun acc x => insertByScoreDesc x acc) []

/-- Embedding of generate_final_ranking: one record per submission of the
union of the stage maps (ids supplied in the iteration order of that
set), then the stable sort by overall score descending.  The four stage
maps enter as lookups from id to recorded outcome. -/
def generate_final_ranking (ids : List String)
    (sec comp di rules : String → Option StageOutcome) : List SubmissionResult :=
  sortByScoreDesc (ids.map fun id => mkSubmissionResult id (sec id) (comp id) (di id) (rules id))

/-! ## General lemmas -/

theorem countBySeverity_eq_countP (sevOf : α → String) (sev : String) (l : List α) :
    countBySeverity sevOf sev l = l.countP (fun i => sevOf i == sev) := by
  simp [countBySeverity, List.countP_eq_length_filter]

theorem count_zero_no_critical (sevOf : α → String) (l : List α)
    (h : countBySeverity sevOf "CRITICAL" l = 0) : hasCriticalBy sevOf l = false := by
  rw [countBySeverity_eq_countP] at h
  rw [List.countP_eq_zero] at h
  simp only [hasCriticalBy]
  rw [List.any_eq_false]
  intro x hx
  simpa using h x hx

theorem hasCritical_of_mem (sevOf : α → String) (l : List α) (x : α)
    (hx : x ∈ l) (hsev : sevOf x = "CRITICAL") : hasCriticalBy sevOf l = true := by
  simp only [hasCriticalBy, List.any_eq_true]
  exact ⟨x, hx, by simp [hsev]⟩

theorem countBySeverity_pos_of_mem (sevOf : α → String) (l : List α) (x : α)
    (hx : x ∈ l) (hsev : sevOf x = "CRITICAL") :
    countBySeverity sevOf "CRITICAL" l ≠ 0 := by
  intro h0
  rw [countBySeverity_eq_countP, List.countP_eq_zero] at h0
  exact absurd (by simp [hsev]) (h0 x hx)

theorem foldl_append_flatten (g : α → List β) (l : List α) (init : List β) :
    l.foldl (fun acc x => acc ++ g x) init = init ++ (l.map g).flatten := by
  induction l generalizing init with
  | nil => simp
  | cons x xs ih => simp [ih, List.append_assoc]

/-! ### Lemmas about the stable descending sort -/

theorem mem_insertByScoreDesc {x y : SubmissionResult} {l : List SubmissionResult}
    (h : y ∈ insertByScoreDesc x l) : y = x ∨ y ∈ l := by
  induction l with
  | nil => simpa [insertByScoreDesc] using h
  | cons z zs ih =>
    simp only [insertByScoreDesc] at h
    by_cases hle : x.overall_score ≤ z.overall_score
    · simp only [if_pos hle, List.mem_cons] at h
      rcases h with h | h
      · exact Or.inr (by simp [h])
      · rcases ih h with h2 | h2
        · exact Or.inl h2
        · exact Or.inr (List.mem_cons_of_mem _ h2)
    · simp only [if_neg hle, List.mem_cons] at h
      rcases h with h | h | h
      · exact Or.inl h
      · exact Or.inr (by simp [h])
      · exact Or.inr (List.mem_cons_of_mem _ h)

/-- The ordering relation of the final ranking: overall score descending. -/
def scoreGE (a b : SubmissionResult) : Prop := b.overall_score ≤ a.overall_score

theorem pairwise_insertByScoreDesc (x : SubmissionResult) (l : List SubmissionResult)
    (h : l.Pairwise scoreGE) : (insertByScoreDesc x l).Pairwise scoreGE := by
  induction l with
  | nil => simp [insertByScoreDesc, scoreGE]
  | cons y ys ih =>
    rcases List.pairwise_cons.mp h with ⟨hy, hys⟩
    simp only [insertByScoreDesc]
    by_cases hle : x.overall_score ≤ y.overall_score
    · rw [if_pos hle]
      refine List.pairwise_cons.mpr ⟨?_, ih hys⟩
      intro z hz
      rcases mem_insertByScoreDesc hz with rfl | hz2
      · exact hle
      · exact hy z hz2
    · rw [if_neg hle]
      refine List.pairwise_cons.mpr ⟨?_, h⟩
      intro z hz
      rcases List.mem_cons.mp hz with rfl | hz2
      · exact le_of_lt (lt_of_not_le hle)
      · exact le_trans (hy z hz2) (le_of_lt (lt_of_not_le hle))

theorem pairwise_foldl_insert (l : List SubmissionResult) (acc : List SubmissionResult)
    (hacc : acc.Pairwise scoreGE) :
    (l.foldl (fun a x => insertByScoreDesc x a) acc).Pairwise scoreGE := by
  induction l generalizing acc with
  | nil => simpa using hacc
  | cons x xs ih => exact ih _ (pairwise_insertByScoreDesc x acc hacc)

theorem pairwise_sortByScoreDesc (l : List SubmissionResult) :
    (sortByScoreDesc l).Pairwise scoreGE := by
  simpa [sortByScoreDesc] using pairwise_foldl_insert l [] (by simp)

theorem mem_foldl_insert {y : SubmissionResult} (l acc : List SubmissionResult)
    (h : y ∈ l.foldl (fun a x => insertByScoreDesc x a) acc) : y ∈ acc ∨ y ∈ l := by
  induction l generalizing acc with
  | nil => exact Or.inl (by simpa using h)
  | cons x xs ih =>
    rcases ih (insertByScoreDesc x acc) (by simpa using h) with h2 | h2
    · rcases mem_insertByScoreDesc h2 with heq | h3
      · exact Or.inr (by simp [heq])
      · exact Or.inl h3
    · exact Or.inr (List.mem_cons_of_mem _ h2)

theorem mem_of_mem_sortByScoreDesc {y : SubmissionResult} {l : List SubmissionResult}
    (h : y ∈ sortByScoreDesc l) : y ∈ l := by
  rcases mem_foldl_insert l [] (by simpa [sortByScoreDesc] using h) with h2 | h2
  · simp at h2
  · exact h2

/-! ## Claims -/

/-- C1: for every stage (security audit, strict compliance, data
integrity, contest rules) and every submission, a true passed flag
implies that the issue/violation list recorded for that submission in
that stage contains no CRITICAL issue. -/
theorem c1_passed_implies_no_critical
    (a : List SecurityIssue) (b c : List StageIssue)
    (d : List RuleViolation) (m : Metrics)
    (ha : security_passed a = true)
    (hb : compliance_passed b = true)
    (hc : integrity_passed c = true)
    (hd : contest_rules_passed d m = true) :
    hasCriticalBy SecurityIssue.severity a = false ∧
    hasCriticalBy StageIssue.severity b = false ∧
    hasCriticalBy StageIssue.severity c = false ∧
    hasCriticalBy RuleViolation.severity d = false := by
  refine ⟨?_, ?_, ?_, ?_⟩
  · simp only [security_passed, Bool.and_eq_true, beq_iff_eq] at ha
    exact count_zero_no_critical _ _ ha.1
  · simp only [compliance_passed, Bool.and_eq_true, Bool.not_eq_true'] at hb
    exact hb.1
  · simp only [integrity_passed, Bool.and_eq_true, Bool.not_eq_true'] at hc
    exact hc.1
  · simp only [contest_rules_passed, Bool.and_eq_true, beq_iff_eq] at hd
    exact count_zero_no_critical _ _ hd.1.2

/-- C1 witness: a concrete passing issue list per stage, with the
conclusion evaluated. -/
theorem c1_witness :
    hasCriticalBy SecurityIssue.severity [⟨"LOW", "Reflection/Dynamic Access", "f.py", some 1⟩] = false ∧
    hasCriticalBy StageIssue.severity [⟨"MEDIUM", "Missing Required File"⟩] = false ∧
    hasCriticalBy StageIssue.severity ([] : List StageIssue) = false ∧
    hasCriticalBy RuleViolation.severity [⟨"HIGH", "Backtest Report", none, none⟩] = false :=
  c1_passed_implies_no_critical
    [⟨"LOW", "Reflection/Dynamic Access", "f.py", some 1⟩]
    [⟨"MEDIUM", "Missing Required File"⟩] []
    [⟨"HIGH", "Backtest Report", none, none⟩] {}
    (by decide) (by decide) (by decide) (by decide)

theorem run_compliance_recorded_mem (inv : InvOutcome) (existsP : String → Bool)
    (check : String → StageOutcome) (survivors : List String)
    (r : String × StageOutcome) (hr : r ∈ (run_compliance_check inv existsP check survivors).1) :
    r.1 ∈ survivors := by
  cases inv <;> simp [run_compliance_check, stage_tool_results, evaluated_set] at hr
  rcases hr with ⟨s, ⟨hs, _⟩, heq⟩
  rw [← heq]
  exact hs

theorem run_data_integrity_recorded_mem (inv : InvOutcome) (existsP : String → Bool)
    (check : String → StageOutcome) (survivors : List String)
    (r : String × StageOutcome) (hr : r ∈ (run_data_integrity_check inv existsP check survivors).1) :
    r.1 ∈ survivors := by
  cases inv <;> simp [run_data_integrity_check, stage_tool_results, evaluated_set] at hr
  rcases hr with ⟨s, ⟨hs, _⟩, heq⟩
  rw [← heq]
  exact hs

theorem run_contest_rules_recorded_mem (inv : InvOutcome) (existsP : String → Bool)
    (check : String → StageOutcome) (survivors : List String)
    (r : String × StageOutcome) (hr : r ∈ (run_contest_rules_verification inv existsP check survivors).1) :
    r.1 ∈ survivors := by
  cases inv with
  | ok =>
    simp only [run_contest_rules_verification, stage_tool_results, evaluated_set,
      List.mem_map, List.mem_filter] at hr
    rcases hr with ⟨s, ⟨hs, _⟩, heq⟩
    rw [← heq]
    exact hs
  | toolFailed =>
    simp only [run_contest_rules_verification, List.mem_map] at hr
    rcases hr with ⟨s, hs, heq⟩
    rw [← heq]
    exact hs
  | fileMissing =>
    simp only [run_contest_rules_verification, List.mem_map] at hr
    rcases hr with ⟨s, hs, heq⟩
    rw [← heq]
    exact hs
  | crashed =>
    simp only [run_contest_rules_verification, List.mem_map] at hr
    rcases hr with ⟨s, hs, heq⟩
    rw [← heq]
    exact hs

/-- C2: in a full pipeline run, for each stage independently, a
submission absent from the survivor set of stage N is neither in the set
of submissions evaluated by stage N+1 (the ids of the prior survivor
list whose directories exist, which is what the stage tool iterates over)
nor among the results stage N+1 records — whatever happened at the other
stages. -/
theorem c2_next_stage_only_survivors
    (secInv compInv diInv rulesInv : InvOutcome)
    (secSummary : List (String × StageOutcome))
    (compExists diExists rulesExists : String → Bool)
    (compCheck diCheck rulesCheck : String → StageOutcome)
    (S : String) :
    let P := run_full_evaluation secInv compInv diInv rulesInv secSummary
      compExists diExists rulesExists compCheck diCheck rulesCheck
    (S ∉ P.secSurvivors →
      S ∉ evaluated_set compExists P.secSurvivors ∧
        P.compRecorded.all (fun r => r.1 != S) = true) ∧
    (S ∉ P.compSurvivors →
      S ∉ evaluated_set diExists P.compSurvivors ∧
        P.diRecorded.all (fun r => r.1 != S) = true) ∧
    (S ∉ P.diSurvivors →
      S ∉ evaluated_set rulesExists P.diSurvivors ∧
        P.rulesRecorded.all (fun r => r.1 != S) = true) := by
  intro P
  have hall : ∀ (rs : List (String × StageOutcome)) (surv : List String),
      S ∉ surv → (∀ r ∈ rs, r.1 ∈ surv) → rs.all (fun r => r.1 != S) = true := by
    intro rs surv hS hmem
    rw [List.all_eq_true]
    intro r hr
    have := hmem r hr
    simp only [bne_iff_ne, ne_eq]
    intro heq
    exact hS (heq ▸ this)
  refine ⟨fun h1 => ⟨fun hmem => h1 (List.mem_filter.mp hmem).1, ?_⟩,
    fun h2 => ⟨fun hmem => h2 (List.mem_filter.mp hmem).1, ?_⟩,
    fun h3 => ⟨fun hmem => h3 (List.mem_filter.mp hmem).1, ?_⟩⟩
  · exact hall _ _ h1 (fun r hr => run_compliance_recorded_mem compInv compExists compCheck _ r hr)
  · exact hall _ _ h2 (fun r hr => run_data_integrity_recorded_mem diInv diExists diCheck _ r hr)
  · exact hall _ _ h3 (fun r hr => run_contest_rules_recorded_mem rulesInv rulesExists rulesCheck _ r hr)

/-- The stage summary of the C2 witness run: two submissions pass the
security audit, one fails it. -/
def c2exSummary : List (String × StageOutcome) :=
  [("good", ⟨true, 90⟩), ("mid", ⟨true, 85⟩), ("bad", ⟨false, 10⟩)]

def c2exExists : String → Bool := fun _ => true

def c2exCheck : String → StageOutcome := fun _ => ⟨true, 80⟩

/-- The compliance verdicts of the C2 witness run: the mid submission
fails the strict compliance check, the others pass it. -/
def c2exCompCheck : String → StageOutcome :=
  fun s => if s == "mid" then ⟨false, 20⟩ else ⟨true, 80⟩

def c2exPipeline : PipelineRun :=
  run_full_evaluation .ok .ok .ok .ok c2exSummary
    c2exExists c2exExists c2exExists c2exCompCheck c2exCheck c2exCheck

/-- C2 witness: in a concrete pipeline run, the submission rejected by the
security stage is neither evaluated nor recorded by the compliance stage,
and the submission that passed security but was rejected by compliance is
neither evaluated nor recorded by the data-integrity stage. -/
theorem c2_witness :
    ("bad" ∉ c2exPipeline.secSurvivors ∧
      ("bad" ∉ evaluated_set c2exExists c2exPipeline.secSurvivors ∧
        c2exPipeline.compRecorded.all (fun r => r.1 != "bad") = true)) ∧
    ("mid" ∈ c2exPipeline.secSurvivors ∧ "mid" ∉ c2exPipeline.compSurvivors ∧
      ("mid" ∉ evaluated_set c2exExists c2exPipeline.compSurvivors ∧
        c2exPipeline.diRecorded.all (fun r => r.1 != "mid") = true)) :=
  ⟨⟨by decide,
    (c2_next_stage_only_survivors .ok .ok .ok .ok c2exSummary
      c2exExists c2exExists c2exExists c2exCompCheck c2exCheck c2exCheck "bad").1
      (by decide)⟩,
   ⟨by decide, by decide,
    (c2_next_stage_only_survivors .ok .ok .ok .ok c2exSummary
      c2exExists c2exExists c2exExists c2exCompCheck c2exCheck c2exCheck "mid").2.1
      (by decide)⟩⟩

/-- C3: every FinalRecord synthesized at final ranking carries an overall
score equal to the sum over the four stages of stage score times stage
weight, and the four fixed weights sum to exactly 1. -/
theorem c3_overall_weighted_sum (ids : List String)
    (sec comp di rules : String → Option StageOutcome)
    (r : SubmissionResult) (hr : r ∈ generate_final_ranking ids sec comp di rules) :
    r.overall_score = r.security_score * securityWeight + r.compliance_score * complianceWeight +
      r.data_integrity_score * dataIntegrityWeight + r.contest_rules_score * contestRulesWeight ∧
    securityWeight + complianceWeight + dataIntegrityWeight + contestRulesWeight = 1 := by
  constructor
  · have hmem := mem_of_mem_sortByScoreDesc hr
    rcases List.mem_map.mp hmem with ⟨id, _, heq⟩
    rw [← heq]
    simp [mkSubmissionResult, qadd_eq, qmul_eq]
  · norm_num [securityWeight, complianceWeight, dataIntegrityWeight, contestRulesWeight,
      Rat.mkRat_eq_div]

def c3exLookup : String → Option StageOutcome := fun _ => some ⟨true, 80⟩

/-- C3 witness: the single record of a concrete ranking run satisfies the
weighted-sum identity. -/
theorem c3_witness :
    (mkSubmissionResult "a" (c3exLookup "a") (c3exLookup "a") (c3exLookup "a")
        (c3exLookup "a")).overall_score =
      (mkSubmissionResult "a" (c3exLookup "a") (c3exLookup "a") (c3exLookup "a")
          (c3exLookup "a")).security_score * securityWeight +
        (mkSubmissionResult "a" (c3exLookup "a") (c3exLookup "a") (c3exLookup "a")
          (c3exLookup "a")).compliance_score * complianceWeight +
        (mkSubmissionResult "a" (c3exLookup "a") (c3exLookup "a") (c3exLookup "a")
          (c3exLookup "a")).data_integrity_score * dataIntegrityWeight +
        (mkSubmissionResult "a" (c3exLookup "a") (c3exLookup "a") (c3exLookup "a")
          (c3exLookup "a")).contest_rules_score * contestRulesWeight ∧
    securityWeight + complianceWeight + dataIntegrityWeight + contestRulesWeight = 1 :=
  c3_overall_weighted_sum ["a"] c3exLookup c3exLookup c3exLookup c3exLookup
    (mkSubmissionResult "a" (c3exLookup "a") (c3exLookup "a") (c3exLookup "a") (c3exLookup "a"))
    (by decide)

/-- The scanned file of scenario A: a single line calling the dynamic
execution primitive, outside any comment. -/
def c4content : String := "exec(user_input)"

/-- The parse of c4content: a module holding one expression statement,
a call of the name exec on the name user_input, all on line 1. -/
def c4tree : PyAst :=
  .module [.exprStmt 1 (.call 1 (.name 1 "exec") [.name 1 "user_input"])]

/-- C4 counterexample: the security scan of a file holding the line
exec(user_input) outside a comment emits two CRITICAL Code Injection
issues, not exactly one: the regex pattern scan and the AST dangerous
call check each emit one. -/
theorem c4_counterexample :
    ((scan_python_file c4content (some c4tree) "strategy.py").filter
      (fun i => i.severity == "CRITICAL" && i.category == "Code Injection")).length = 2 := by
  decide

/-- C4 amended: the scan of that file emits exactly the two CRITICAL
Code Injection issues for line 1, and with these as the only issues the
security score is 100 minus two deductions of 40, that is 20, so the
stage fails. -/
theorem c4_amended_two_critical_issues :
    scan_python_file c4content (some c4tree) "strategy.py" =
      [⟨"CRITICAL", "Code Injection", "strategy.py", some 1⟩,
       ⟨"CRITICAL", "Code Injection", "strategy.py", some 1⟩] ∧
    security_score (scan_python_file c4content (some c4tree) "strategy.py") = 20 ∧
    security_passed (scan_python_file c4content (some c4tree) "strategy.py") = false :=
  ⟨by decide, by decide, by decide⟩

/-- The report of the C5 counterexample: a markdown table whose combined
row carries a total return of 10 percent, followed by a free-text line
claiming a total return of 99 percent. -/
def c5content : String := "|symbol|\n|combined|10%|5%|2|12|\ntotal return: 99%"

/-- C5 counterexample: the table-aware first strategy extracts
total_return 10, but the full extraction returns 99: the later free-text
regex strategy overwrote the already-populated value. -/
theorem c5_counterexample :
    (extract_from_markdown_table c5content).total_return = some 10 ∧
    (extract_metrics_from_text c5content).total_return = some 99 :=
  ⟨by decide, by decide⟩

/-- C5 amended: the only no-overwrite guard in the chain is the generic
Sharpe pass, which leaves the metrics untouched whenever sharpe_ratio is
already populated; the other passes overwrite freely, as the
counterexample shows. -/
theorem c5_amended_generic_sharpe_no_overwrite (content : String) (m : Metrics)
    (h : m.sharpe.isSome = true) : sharpeGenericStep content m = m := by
  simp [sharpeGenericStep, h]

/-- C5 witness: the generic Sharpe pass leaves a populated sharpe_ratio
unchanged on a concrete input. -/
theorem c5_amended_witness :
    sharpeGenericStep "sharpe ratio: 9" { sharpe := some 3 } = { sharpe := some 3 } :=
  c5_amended_generic_sharpe_no_overwrite "sharpe ratio: 9" { sharpe := some 3 } (by decide)

/-- The report of the C6 counterexample: a markdown table whose combined
row carries a Sharpe ratio of 50. -/
def c6content : String := "|symbol|\n|combined|10%|5%|50|12|"

/-- C6 counterexample: the returned metrics map contains a sharpe_ratio
of 50, far outside the plausible interval from -5 to 10, because the
markdown-table path performs no range validation. -/
theorem c6_counterexample :
    (extract_metrics_from_text c6content).sharpe = some 50 ∧
    ¬((-5 : ℚ) ≤ 50 ∧ (50 : ℚ) ≤ 10) :=
  ⟨by decide, by decide⟩

theorem sharpeGenericLoop_range (pats : List RE) (content : String) (m : Metrics) :
    (sharpeGenericLoop pats content m).sharpe = m.sharpe ∨
      ∃ v, (sharpeGenericLoop pats content m).sharpe = some v ∧ -5 ≤ v ∧ v ≤ 10 := by
  induction pats with
  | nil => exact Or.inl rfl
  | cons p rest ih =>
    rcases hs : reSearchGroup1 false p content with _ | g
    · simpa only [sharpeGenericLoop, hs] using ih
    · rcases hp : pyParseFloat g with _ | v
      · simpa only [sharpeGenericLoop, hs, hp] using ih
      · by_cases hv : -5 ≤ v ∧ v ≤ 10
        · right
          refine ⟨v, ?_, hv⟩
          simp [sharpeGenericLoop, hs, hp, hv]
        · simpa only [sharpeGenericLoop, hs, hp, if_neg hv] using ih

/-- C6 amended: only the free-text regex paths validate the Sharpe
candidate range: each of the two regex Sharpe passes either leaves the
sharpe_ratio entry unchanged or sets it to a value between -5 and 10,
while the table path accepts any value, as the counterexample shows. -/
theorem c6_amended_regex_sharpe_range (content : String) (m : Metrics) :
    ((sharpeSpecialStep content m).sharpe = m.sharpe ∨
      ∃ v, (sharpeSpecialStep content m).sharpe = some v ∧ -5 ≤ v ∧ v ≤ 10) ∧
    ((sharpeGenericStep content m).sharpe = m.sharpe ∨
      ∃ v, (sharpeGenericStep content m).sharpe = some v ∧ -5 ≤ v ∧ v ≤ 10) := by
  constructor
  · rcases hs : reSearchGroup1 false sharpe_special_pattern content with _ | g
    · left
      simp [sharpeSpecialStep, hs]
    · rcases hp : pyParseFloat g with _ | v
      · left
        simp [sharpeSpecialStep, hs, hp]
      · by_cases hv : -5 ≤ v ∧ v ≤ 10
        · right
          refine ⟨v, ?_, hv⟩
          simp [sharpeSpecialStep, hs, hp, hv]
        · left
          simp [sharpeSpecialStep, hs, hp, if_neg hv]
  · by_cases hsome : m.sharpe.isSome
    · left
      simp [sharpeGenericStep, hsome]
    · rw [sharpeGenericStep, if_neg hsome]
      exact sharpeGenericLoop_range sharpe_generic_patterns content m

def c7exExists : String → Bool := fun _ => true

def c7exCheck : String → StageOutcome := fun _ => ⟨true, 100⟩

/-- C7 counterexample: when the data-integrity tool invocation fails, the
orchestrator records nothing for the affected survivor and returns an
empty survivor set, instead of the claimed assume-pass-with-default-score
fallback; the survivor is eliminated without a recorded stage result. -/
theorem c7_counterexample :
    (run_data_integrity_check .toolFailed c7exExists c7exCheck ["sub1"]).1 = [] ∧
    (run_data_integrity_check .toolFailed c7exExists c7exCheck ["sub1"]).2 = [] :=
  ⟨rfl, rfl⟩

/-- C7 amended: the fallback differs per stage.  On any failed invocation
(non-zero exit, missing results file, or exception), the contest-rules
stage records every survivor as passed with the default score 75 and
forwards them all; the compliance stage forwards all survivors but
records nothing; the data-integrity and security stages record nothing
and drop every survivor. -/
theorem c7_amended_per_stage_fallback (inv : InvOutcome) (hinv : inv ≠ .ok)
    (existsP : String → Bool) (check : String → StageOutcome)
    (summary : List (String × StageOutcome)) (survivors : List String)
    (S : String) (hS : S ∈ survivors) :
    ((S, (⟨true, 75⟩ : StageOutcome)) ∈ (run_contest_rules_verification inv existsP check survivors).1 ∧
      S ∈ (run_contest_rules_verification inv existsP check survivors).2) ∧
    run_compliance_check inv existsP check survivors = ([], survivors) ∧
    run_data_integrity_check inv existsP check survivors = ([], []) ∧
    run_security_audit inv summary = ([], []) := by
  cases inv with
  | ok => exact absurd rfl hinv
  | toolFailed =>
    exact ⟨⟨List.mem_map.mpr ⟨S, hS, rfl⟩, hS⟩, rfl, rfl, rfl⟩
  | fileMissing =>
    exact ⟨⟨List.mem_map.mpr ⟨S, hS, rfl⟩, hS⟩, rfl, rfl, rfl⟩
  | crashed =>
    exact ⟨⟨List.mem_map.mpr ⟨S, hS, rfl⟩, hS⟩, rfl, rfl, rfl⟩

/-- C7 amended witness: the per-stage fallbacks on a concrete failed
invocation with one survivor. -/
theorem c7_amended_witness :
    (("sub1", (⟨true, 75⟩ : StageOutcome)) ∈
        (run_contest_rules_verification .toolFailed c7exExists c7exCheck ["sub1"]).1 ∧
      "sub1" ∈ (run_contest_rules_verification .toolFailed c7exExists c7exCheck ["sub1"]).2) ∧
    run_compliance_check .toolFailed c7exExists c7exCheck ["sub1"] = ([], ["sub1"]) ∧
    run_data_integrity_check .toolFailed c7exExists c7exCheck ["sub1"] = ([], []) ∧
    run_security_audit .toolFailed [] = ([], []) :=
  c7_amended_per_stage_fallback .toolFailed (by decide) c7exExists c7exCheck [] ["sub1"]
    "sub1" (by decide)

def c8exLookup : String → Option StageOutcome := fun _ => some ⟨true, 80⟩

/-- C8 counterexample: with equal overall scores everywhere, the final
ranking keeps the iteration order of the submission set: the run over
the order b, a ranks b first, the run over a, b ranks a first, so equal
scores are not ordered by submission id and the tie order is not
deterministic. -/
theorem c8_counterexample :
    (generate_final_ranking ["b", "a"] c8exLookup c8exLookup c8exLookup c8exLookup).map
      (fun r => r.submission_id) = ["b", "a"] ∧
    (generate_final_ranking ["a", "b"] c8exLookup c8exLookup c8exLookup c8exLookup).map
      (fun r => r.submission_id) = ["a", "b"] ∧
    (generate_final_ranking ["b", "a"] c8exLookup c8exLookup c8exLookup c8exLookup).map
      (fun r => r.overall_score) = [80, 80] :=
  ⟨by decide, by decide, by decide⟩

/-- C8 amended: the final ranking is sorted by overall score descending
(stably, so records with equal scores keep the encounter order of the
submission set rather than being ordered by submission id). -/
theorem c8_amended_sorted_descending (ids : List String)
    (sec comp di rules : String → Option StageOutcome) :
    (generate_final_ranking ids sec comp di rules).Pairwise scoreGE :=
  pairwise_sortByScoreDesc _

/-- The scanned file of the C9 counterexample: its first line matches a
rule of the second catalog entry, its second line a rule of the first. -/
def c9content : String := "os.system(1)\nexec(2)"

/-- C9 counterexample: the issues come out in rule-catalog-major order,
line 2 before line 1, not in the claimed line-major order. -/
theorem c9_counterexample :
    check_dangerous_patterns c9content "f.py" =
      [⟨"CRITICAL", "Code Injection", "f.py", some 2⟩,
       ⟨"CRITICAL", "System Access", "f.py", some 1⟩] ∧
    (check_dangerous_patterns c9content "f.py").map (fun i => i.line_number) =
      [some 2, some 1] :=
  ⟨by decide, by decide⟩

/-- C9 amended: _check_dangerous_patterns iterates the rule catalog in the
outer loops (category, then pattern) and the file lines in the innermost
loop, so the report is the concatenation, in catalog order, of the
per-line scans of the individual rules. -/
theorem c9_amended_rule_major_order (content file_path : String) :
    check_dangerous_patterns content file_path =
      (dangerous_patterns.map fun cat =>
        (cat.patterns.map fun pat =>
          scan_lines_for_pattern pat cat.severity cat.category file_path
            (enumerate1 (pySplitlines content))).flatten).flatten := by
  have hinner : ∀ (sev cat : String) (pat : RE) (acc : List SecurityIssue),
      (enumerate1 (pySplitlines content)).foldl
          (fun a nl => a ++ lineIssue pat sev cat file_path nl) acc =
        acc ++ scan_lines_for_pattern pat sev cat file_path (enumerate1 (pySplitlines content)) := by
    intro sev cat pat acc
    rw [foldl_append_flatten]
    rfl
  have hmid : ∀ (cat : PatternCategory) (acc : List SecurityIssue),
      cat.patterns.foldl
          (fun a pat => (enumerate1 (pySplitlines content)).foldl
            (fun a2 nl => a2 ++ lineIssue pat cat.severity cat.category file_path nl) a) acc =
        acc ++ (cat.patterns.map fun pat =>
          scan_lines_for_pattern pat cat.severity cat.category file_path
            (enumerate1 (pySplitlines content))).flatten := by
    intro cat acc
    have hfun : (fun (a : List SecurityIssue) pat => (enumerate1 (pySplitlines content)).foldl
          (fun a2 nl => a2 ++ lineIssue pat cat.severity cat.category file_path nl) a) =
        fun a pat => a ++ scan_lines_for_pattern pat cat.severity cat.category file_path
          (enumerate1 (pySplitlines content)) := by
      funext a pat
      exact hinner cat.severity cat.category pat a
    rw [hfun, foldl_append_flatten]
  have houter : (fun (a : List SecurityIssue) (cat : PatternCategory) => cat.patterns.foldl
        (fun a2 pat => (enumerate1 (pySplitlines content)).foldl
          (fun a3 nl => a3 ++ lineIssue pat cat.severity cat.category file_path nl) a2) a) =
      fun a cat => a ++ (cat.patterns.map fun pat =>
        scan_lines_for_pattern pat cat.severity cat.category file_path
          (enumerate1 (pySplitlines content))).flatten := by
    funext a cat
    exact hmid cat a
  have hunfold : check_dangerous_patterns content file_path =
      dangerous_patterns.foldl (fun acc cat =>
        cat.patterns.foldl (fun acc2 pat =>
          (enumerate1 (pySplitlines content)).foldl
            (fun acc3 nl => acc3 ++ lineIssue pat cat.severity cat.category file_path nl)
            acc2) acc) [] := rfl
  rw [hunfold, houter, foldl_append_flatten]
  exact List.nil_append _

/-- The C10 witness metrics: a report whose maximum drawdown is exactly
the 50 percent limit. -/
def c10m : Metrics :=
  { emptyMetrics with max_drawdown := some 50 }

/-- C10: the drawdown disqualification boundary is inclusive.  Whenever the
extracted metrics carry a max_drawdown value d with d >= MAX_DRAWDOWN
(50.0), validate_financial_constraints emits the CRITICAL
DISQUALIFICATION - Drawdown Violation entry, and check_submission fails
the submission no matter what the other validation passes contribute,
because its pass rule requires zero CRITICAL violations. -/
theorem c10_drawdown_boundary_inclusive (m : Metrics) (d : ℚ)
    (hd : m.max_drawdown = some d) (hge : MAX_DRAWDOWN ≤ d) :
    (⟨"CRITICAL", "DISQUALIFICATION - Drawdown Violation", some d, some MAX_DRAWDOWN⟩ :
        RuleViolation) ∈ validate_financial_constraints m ∧
    ∀ pre post : List RuleViolation,
      contest_rules_passed (pre ++ validate_financial_constraints m ++ post) m = false := by
  have hmem : (⟨"CRITICAL", "DISQUALIFICATION - Drawdown Violation", some d, some MAX_DRAWDOWN⟩ :
      RuleViolation) ∈ validate_financial_constraints m := by
    simp only [validate_financial_constraints, hd]
    rw [if_pos hge]
    simp
  refine ⟨hmem, fun pre post => ?_⟩
  have hmem2 : (⟨"CRITICAL", "DISQUALIFICATION - Drawdown Violation", some d, some MAX_DRAWDOWN⟩ :
      RuleViolation) ∈ pre ++ validate_financial_constraints m ++ post := by
    simp only [List.mem_append]
    exact Or.inl (Or.inr hmem)
  have hcnt := countBySeverity_pos_of_mem RuleViolation.severity _ _ hmem2 rfl
  have hb : (countBySeverity RuleViolation.severity "CRITICAL"
      (pre ++ validate_financial_constraints m ++ post) == 0) = false := by
    simpa using hcnt
  rw [List.append_assoc] at hcnt
  simp only [contest_rules_passed]
  simp
  intro _ h0
  exact absurd h0 hcnt

/-- C10 witness: the hypotheses and both conclusions evaluated at a report
with maximum drawdown exactly 50. -/
theorem c10_witness :
    c10m.max_drawdown = some 50 ∧ MAX_DRAWDOWN ≤ (50 : ℚ) ∧
    ((⟨"CRITICAL", "DISQUALIFICATION - Drawdown Violation", some 50, some MAX_DRAWDOWN⟩ :
        RuleViolation) ∈ validate_financial_constraints c10m ∧
      contest_rules_passed ([] ++ validate_financial_constraints c10m ++ []) c10m = false) :=
  ⟨rfl, by decide,
    (c10_drawdown_boundary_inclusive c10m 50 rfl (by decide)).1,
    (c10_drawdown_boundary_inclusive c10m 50 rfl (by decide)).2 [] []⟩
